import Mathlib

/-!
The wallet service `flow-wallet-api`: admin bootstrap, job details and the
account registry.

A shallow embedding of

* `accounts.Service.InitAdminAccount` and `accounts.Service.addAdminProposalKeys`
  (`src/accounts/service_init.go`),
* `jobs.Service.Details` (`src/jobs/service.go`),
* the externally-owned account operations exercised by
  `src/tests/accounts_service_test.go`.

Go code that calls collaborators (store, key manager, transaction service, event
bus) is embedded by explicit state passing over a world type `W`; every
collaborator call is appended to a trace of `Call`s so that statements such as
"submits exactly one transaction" can be expressed.
-/

/-! ## Go runtime pieces -/

/-- Go `error` values: a value built by `errors.New` (identity `ident`, text
`text`) or a value wrapping another one (`fmt.Errorf` with `%w`).  `text` is what
`Error()` returns. -/
inductive GoError where
  | new (ident : Nat) (text : String)
  | wrap (ident : Nat) (text : String) (inner : GoError)
  deriving DecidableEq, Repr

namespace GoError

/-- The method `Error()`. -/
def Error : GoError → String
  | new _ t => t
  | wrap _ t _ => t

end GoError

namespace errors

/-- Go `errors.Is(err, target)`: `err` or one of the errors it wraps is `target`. -/
def Is : GoError → GoError → Bool
  | .new i t, target => decide (GoError.new i t = target)
  | .wrap i t inner, target => decide (GoError.wrap i t inner = target) || Is inner target

end errors

namespace strings

/-- Whether `sub` starts the character list `l`. -/
def hasPrefixChars : List Char → List Char → Bool
  | _, [] => true
  | [], _ :: _ => false
  | c :: l, d :: sub => decide (c = d) && hasPrefixChars l sub

/-- Whether `sub` occurs in the character list `l`. -/
def containsChars : List Char → List Char → Bool
  | [], sub => hasPrefixChars [] sub
  | c :: l, sub => hasPrefixChars (c :: l) sub || containsChars l sub

/-- Go `strings.Contains(s, substr)`. -/
def Contains (s substr : String) : Bool :=
  containsChars s.data substr.data

end strings

/-- Go `uint16` subtraction: the difference modulo `2^16`. -/
def uint16Sub (a b : Nat) : Nat :=
  (a + 65536 - b % 65536) % 65536

/-! ## Package `accounts`: data -/

namespace flow

/-- The ledger address type `flow.Address` of the SDK (a byte array). -/
structure Address where
  bytes : List Nat
  deriving DecidableEq, Repr

end flow

namespace cadence

/-- The two kinds of `cadence.Value` that `addAdminProposalKeys` builds. -/
inductive Value where
  | NewInt (v : Int)
  | NewUInt16 (v : Nat)
  deriving DecidableEq, Repr

end cadence

namespace transactions

/-- The transaction type passed to `transactions.Service.Create`; the source uses
`transactions.General` only. -/
inductive TransactionType where
  | General
  | other (tag : Nat)
  deriving DecidableEq, Repr

end transactions

namespace accounts

/-- The `Account` row; `Address` is the only field the source sets. -/
structure Account where
  Address : String
  deriving DecidableEq, Repr

/-- The payload of the `AccountAdded` event. -/
structure AccountAddedPayload where
  Address : flow.Address
  deriving DecidableEq, Repr

/-- The fields of the configuration read by `InitAdminAccount`:
`AdminProposalKeyCount` is a `uint16`, `AdminKeyIndex` an `int`. -/
structure Config where
  AdminAddress : String
  AdminProposalKeyCount : Nat
  AdminKeyIndex : Int
  deriving DecidableEq, Repr

/-- One call made to a collaborator, with its arguments. -/
inductive Call where
  | storeAccount (address : String)
  | storeInsertAccount (a : Account)
  | accountAddedTrigger (p : AccountAddedPayload)
  | kmCheckAdminProposalKeyCount
  | kmInitAdminProposalKeys
  | transactionsCreate (sync : Bool) (address code : String)
      (args : List cadence.Value) (tType : transactions.TransactionType)
  deriving DecidableEq, Repr

/-- The collaborators of `accounts.Service`, none of which is defined in the
embedded files; each is a function of the world `W` it reads and changes.
`store` is the account store, `km` the key manager, `transactions` the
transaction service, `AccountAdded` the event, and the three constants are
`flow.HexToAddress`, `keys.ErrAdminProposalKeyCountMismatch` and
`template_strings.AddProposalKeyTransaction`. -/
structure Service (W : Type) where
  cfg : Config
  storeAccount : String → W → (Account × Option GoError) × W
  storeInsertAccount : Account → W → Option GoError × W
  accountAddedTrigger : AccountAddedPayload → W → W
  kmCheckAdminProposalKeyCount : W → Option GoError × W
  kmInitAdminProposalKeys : W → (Nat × Option GoError) × W
  transactionsCreate : Bool → String → String → List cadence.Value →
    transactions.TransactionType → W → Option GoError × W
  HexToAddress : String → flow.Address
  ErrAdminProposalKeyCountMismatch : GoError
  AddProposalKeyTransaction : String

/-- The outcome of a run: the returned `error` (`none` is `nil`), the world the
run ends in, and the collaborator calls made, oldest first. -/
structure Outcome (W : Type) where
  err : Option GoError
  world : W
  trace : List Call

variable {W : Type}

/-- The method `Service.addAdminProposalKeys` (lines 69-83): one synchronous `Create` of the
add-proposal-key transaction with arguments `[NewInt AdminKeyIndex, NewUInt16 count]`. -/
def Service.addAdminProposalKeys (s : Service W) (count : Nat) (w : W) : Outcome W :=
  let code := s.AddProposalKeyTransaction
  let args := [cadence.Value.NewInt s.cfg.AdminKeyIndex, cadence.Value.NewUInt16 count]
  match s.transactionsCreate true s.cfg.AdminAddress code args .General w with
  | (err, w1) =>
    ⟨err, w1, [Call.transactionsCreate true s.cfg.AdminAddress code args .General]⟩

/-- Lines 19-33 of `Service.InitAdminAccount`: look the admin row up and insert it
when the lookup error mentions "record not found".  `err = some e` means that
`InitAdminAccount` returns `e` here. -/
def Service.ensureAdminRow (s : Service W) (w : W) : Outcome W :=
  match s.storeAccount s.cfg.AdminAddress w with
  | ((_, none), w1) => ⟨none, w1, [Call.storeAccount s.cfg.AdminAddress]⟩
  | ((_, some err), w1) =>
    if !strings.Contains err.Error "record not found" then
      ⟨some err, w1, [Call.storeAccount s.cfg.AdminAddress]⟩
    else
      let a : Account := { Address := s.cfg.AdminAddress }
      match s.storeInsertAccount a w1 with
      | (some err, w2) =>
        ⟨some err, w2, [Call.storeAccount s.cfg.AdminAddress, Call.storeInsertAccount a]⟩
      | (none, w2) =>
        let p : AccountAddedPayload := { Address := s.HexToAddress s.cfg.AdminAddress }
        ⟨none, s.accountAddedTrigger p w2,
          [Call.storeAccount s.cfg.AdminAddress, Call.storeInsertAccount a,
            Call.accountAddedTrigger p]⟩

/-- Lines 39-66 of `Service.InitAdminAccount`: check the proposal key count and, on
a mismatch, re-initialise the keys and add the missing ones. -/
def Service.syncProposalKeys (s : Service W) (w : W) : Outcome W :=
  match s.kmCheckAdminProposalKeyCount w with
  | (none, w1) => ⟨none, w1, [Call.kmCheckAdminProposalKeyCount]⟩
  | (some err, w1) =>
    if errors.Is err s.ErrAdminProposalKeyCountMismatch then
      match s.kmInitAdminProposalKeys w1 with
      | ((_, some err), w2) =>
        ⟨some err, w2, [Call.kmCheckAdminProposalKeyCount, Call.kmInitAdminProposalKeys]⟩
      | ((keyCount, none), w2) =>
        if keyCount < s.cfg.AdminProposalKeyCount then
          let r := s.addAdminProposalKeys (uint16Sub s.cfg.AdminProposalKeyCount keyCount) w2
          match r.err with
          | some err =>
            ⟨some err, r.world,
              [Call.kmCheckAdminProposalKeyCount, Call.kmInitAdminProposalKeys] ++ r.trace⟩
          | none =>
            match s.kmInitAdminProposalKeys r.world with
            | ((_, some err), w4) =>
              ⟨some err, w4,
                [Call.kmCheckAdminProposalKeyCount, Call.kmInitAdminProposalKeys] ++ r.trace
                  ++ [Call.kmInitAdminProposalKeys]⟩
            | ((_, none), w4) =>
              ⟨none, w4,
                [Call.kmCheckAdminProposalKeyCount, Call.kmInitAdminProposalKeys] ++ r.trace
                  ++ [Call.kmInitAdminProposalKeys]⟩
        else
          ⟨none, w2, [Call.kmCheckAdminProposalKeyCount, Call.kmInitAdminProposalKeys]⟩
    else
      ⟨some err, w1, [Call.kmCheckAdminProposalKeyCount]⟩

/-- The method `Service.InitAdminAccount` (lines 16-67): step 1, then the proposal
key steps unless step 1 returned an error. -/
def Service.InitAdminAccount (s : Service W) (w : W) : Outcome W :=
  let r1 := s.ensureAdminRow w
  match r1.err with
  | some err => ⟨some err, r1.world, r1.trace⟩
  | none =>
    let r2 := s.syncProposalKeys r1.world
    ⟨r2.err, r2.world, r1.trace ++ r2.trace⟩

/-- Whether a call is a `transactions.Service.Create` call. -/
def Call.isCreate : Call → Bool
  | .transactionsCreate _ _ _ _ _ => true
  | _ => false

/-- Whether a call is a `KeyManager.InitAdminProposalKeys` call. -/
def Call.isInitKeys : Call → Bool
  | .kmInitAdminProposalKeys => true
  | _ => false

/-- Whether a call is a `Store.InsertAccount` call. -/
def Call.isInsert : Call → Bool
  | .storeInsertAccount _ => true
  | _ => false

/-- Whether a call publishes an `AccountAdded` event. -/
def Call.isTrigger : Call → Bool
  | .accountAddedTrigger _ => true
  | _ => false

/-- Whether the error of the store lookup reports the record as not found, the
way line 21 tests it: the text of the error contains "record not found". -/
def lookupNotFound : Option GoError → Bool
  | some err => strings.Contains err.Error "record not found"
  | none => false

/-- The grow transaction `addAdminProposalKeys count` submits. -/
def Service.growCall (s : Service W) (count : Nat) : Call :=
  Call.transactionsCreate true s.cfg.AdminAddress s.AddProposalKeyTransaction
    [cadence.Value.NewInt s.cfg.AdminKeyIndex, cadence.Value.NewUInt16 count] .General

end accounts

/-! ## A simulated world for the collaborators of `accounts.Service` -/

namespace sim

/-- The state the simulated collaborators share: the account rows of the store,
the `AccountAdded` events published so far, the number of keys registered on the
admin account on the ledger, and a script of injected failures: each fallible
collaborator call consumes the head of `faults` and fails with it when it is
`some e`, without any other effect. -/
structure World where
  rows : List accounts.Account
  events : List accounts.AccountAddedPayload
  keyCount : Nat
  faults : List (Option GoError)
  deriving DecidableEq, Repr

/-- The text the source matches on (`service_init.go` line 21, `jobs/service.go`
line 42) as the error of a lookup that finds no row. -/
def ErrRecordNotFound : GoError := GoError.new 0 "record not found"

/-- The error of an insert that would break address uniqueness. -/
def ErrDuplicateAddress : GoError := GoError.new 1 "duplicate account address"

/-- The sentinel `keys.ErrAdminProposalKeyCountMismatch`. -/
def ErrAdminProposalKeyCountMismatch : GoError :=
  GoError.new 2 "admin proposal key count mismatch"

/-- Consume the next scripted failure, if any. -/
def World.next (w : World) : Option GoError × World :=
  match w.faults with
  | [] => (none, w)
  | f :: rest => (f, { w with faults := rest })

/-- Modelled from the spec: the persistence collaborator's lookup
(`Store.Account`, not in the embedded files), section 6: CRUD for `Account` with
a distinguishable "not found" condition. -/
def storeAccount (address : String) (w : World) :
    (accounts.Account × Option GoError) × World :=
  match w.next with
  | (some e, w1) => (({ Address := "" }, some e), w1)
  | (none, w1) =>
    match w1.rows.find? (fun a => decide (a.Address = address)) with
    | some a => ((a, none), w1)
    | none => (({ Address := "" }, some ErrRecordNotFound), w1)

/-- Modelled from the spec: the persistence collaborator's insert
(`Store.InsertAccount`, not in the embedded files), section 2: the registry
enforces address uniqueness. -/
def storeInsertAccount (a : accounts.Account) (w : World) : Option GoError × World :=
  match w.next with
  | (some e, w1) => (some e, w1)
  | (none, w1) =>
    if w1.rows.any (fun b => decide (b.Address = a.Address)) then
      (some ErrDuplicateAddress, w1)
    else
      (none, { w1 with rows := w1.rows ++ [a] })

/-- Modelled from the spec: the notification collaborator (`AccountAdded.Trigger`,
not in the embedded files), section 6: publishes `AccountAdded` events. -/
def accountAddedTrigger (p : accounts.AccountAddedPayload) (w : World) : World :=
  { w with events := w.events ++ [p] }

/-- Modelled from the spec: `KeyManager.CheckAdminProposalKeyCount` (not in the
embedded files), section 4.1 `CheckCount`: fails with the mismatch error if the
actual count differs from `desired`, succeeds otherwise; no mutation. -/
def kmCheckAdminProposalKeyCount (desired : Nat) (w : World) : Option GoError × World :=
  match w.next with
  | (some e, w1) => (some e, w1)
  | (none, w1) =>
    if w1.keyCount = desired then (none, w1) else (some ErrAdminProposalKeyCountMismatch, w1)

/-- Modelled from the spec: `KeyManager.InitAdminProposalKeys` (not in the embedded
files), sections 3 and 4.1: the pool view is rebuilt by re-reading the admin
account; the call returns the count it read, a `uint16`. -/
def kmInitAdminProposalKeys (w : World) : (Nat × Option GoError) × World :=
  match w.next with
  | (some e, w1) => ((0, some e), w1)
  | (none, w1) => ((w1.keyCount % 65536, none), w1)

/-- Modelled from the spec: `transactions.Service.Create` (not in the embedded
files) run synchronously, section 4.1 `Grow`: a successful add-keys transaction
with count argument `delta` registers `delta` new keys on the admin account; a
failed one registers none. -/
def transactionsCreate (addKeysCode : String) (_sync : Bool) (_address code : String)
    (args : List cadence.Value) (_tType : transactions.TransactionType) (w : World) :
    Option GoError × World :=
  match w.next with
  | (some e, w1) => (some e, w1)
  | (none, w1) =>
    match args with
    | [_, cadence.Value.NewUInt16 delta] =>
      if code = addKeysCode then (none, { w1 with keyCount := w1.keyCount + delta })
      else (none, w1)
    | _ => (none, w1)

/-- A stand-in for the template `template_strings.AddProposalKeyTransaction`. -/
def AddProposalKeyTransaction : String := "transaction: add proposal keys"

/-- A stand-in for `flow.HexToAddress` of the SDK: the code points of the text. -/
def HexToAddress (s : String) : flow.Address :=
  { bytes := s.data.map Char.toNat }

/-- The service wired to the simulated collaborators. -/
def service (cfg : accounts.Config) : accounts.Service World where
  cfg := cfg
  storeAccount := storeAccount
  storeInsertAccount := storeInsertAccount
  accountAddedTrigger := accountAddedTrigger
  kmCheckAdminProposalKeyCount := kmCheckAdminProposalKeyCount cfg.AdminProposalKeyCount
  kmInitAdminProposalKeys := kmInitAdminProposalKeys
  transactionsCreate := transactionsCreate AddProposalKeyTransaction
  HexToAddress := HexToAddress
  ErrAdminProposalKeyCountMismatch := ErrAdminProposalKeyCountMismatch
  AddProposalKeyTransaction := AddProposalKeyTransaction

/-- Whether the store holds a row for `address`. -/
def World.hasRow (w : World) (address : String) : Bool :=
  w.rows.any (fun a => decide (a.Address = address))

/-- The configuration of the worked example: three proposal keys wanted. -/
def cfg3 : accounts.Config :=
  { AdminAddress := "0xf8d6e0586b0a20c7", AdminProposalKeyCount := 3, AdminKeyIndex := 0 }

/-- The world of the worked example: no account rows yet, one key on the admin
account, no injected failure. -/
def oneKey : World :=
  { rows := [], events := [], keyCount := 1, faults := [] }

/-- A world with four keys on the admin account, one more than `cfg3` wants. -/
def fourKeys : World :=
  { rows := [], events := [], keyCount := 4, faults := [] }

/-- The world `oneKey` once step 1 has inserted the admin row of `cfg3` and published
the event. -/
def oneKeyReady : World :=
  { rows := [{ Address := "0xf8d6e0586b0a20c7" }],
    events := [{ Address := HexToAddress "0xf8d6e0586b0a20c7" }],
    keyCount := 1, faults := [] }

/-- The world `oneKeyReady` once two keys have been added. -/
def threeKeysReady : World :=
  { rows := [{ Address := "0xf8d6e0586b0a20c7" }],
    events := [{ Address := HexToAddress "0xf8d6e0586b0a20c7" }],
    keyCount := 3, faults := [] }

/-- The world `fourKeys` once step 1 has inserted the admin row of `cfg3`. -/
def fourKeysReady : World :=
  { rows := [{ Address := "0xf8d6e0586b0a20c7" }],
    events := [{ Address := HexToAddress "0xf8d6e0586b0a20c7" }],
    keyCount := 4, faults := [] }

/-- A failure of the storage engine. -/
def ErrDatabaseLocked : GoError := GoError.new 9 "database is locked"

/-- A world without an admin row in which the lookup works and the insert that
follows it fails. -/
def insertFails : World :=
  { rows := [], events := [], keyCount := 1, faults := [none, some ErrDatabaseLocked] }

/-- The world `insertFails` once the lookup has been made. -/
def insertFailsLooked : World :=
  { rows := [], events := [], keyCount := 1, faults := [some ErrDatabaseLocked] }

/-- The world `insertFails` once the lookup and the failed insert have consumed the
script. -/
def insertFailed : World :=
  { rows := [], events := [], keyCount := 1, faults := [] }

/-- A world without any key on the admin account. -/
def noKeys : World :=
  { rows := [], events := [], keyCount := 0, faults := [] }

/-- The world `noKeys` once step 1 has inserted the admin row of `cfg3` and published
the event. -/
def noKeysReady : World :=
  { rows := [{ Address := "0xf8d6e0586b0a20c7" }],
    events := [{ Address := HexToAddress "0xf8d6e0586b0a20c7" }],
    keyCount := 0, faults := [] }

/-- A world in which the lookup and the insert work and the count check fails with
an error of the ledger connection. -/
def checkFails : World :=
  { rows := [], events := [], keyCount := 1,
    faults := [none, none, some (GoError.new 7 "connection refused")] }

end sim

/-! ## Scripted collaborators -/

namespace mock

/-- A world of scripted collaborators: every collaborator call returns the head
of its own queue of prepared results (the zero results when the queue is empty)
and has no other effect, except that published events are recorded. -/
structure World where
  lookups : List (accounts.Account × Option GoError)
  inserts : List (Option GoError)
  checks : List (Option GoError)
  inits : List (Nat × Option GoError)
  creates : List (Option GoError)
  published : List accounts.AccountAddedPayload
  deriving DecidableEq, Repr

/-- The service wired to the scripted collaborators. -/
def service (cfg : accounts.Config) : accounts.Service World where
  cfg := cfg
  storeAccount := fun _ w =>
    match w.lookups with
    | [] => (({ Address := "" }, none), w)
    | r :: rest => (r, { w with lookups := rest })
  storeInsertAccount := fun _ w =>
    match w.inserts with
    | [] => (none, w)
    | r :: rest => (r, { w with inserts := rest })
  accountAddedTrigger := fun p w => { w with published := w.published ++ [p] }
  kmCheckAdminProposalKeyCount := fun w =>
    match w.checks with
    | [] => (none, w)
    | r :: rest => (r, { w with checks := rest })
  kmInitAdminProposalKeys := fun w =>
    match w.inits with
    | [] => ((0, none), w)
    | r :: rest => (r, { w with inits := rest })
  transactionsCreate := fun _ _ _ _ _ w =>
    match w.creates with
    | [] => (none, w)
    | r :: rest => (r, { w with creates := rest })
  HexToAddress := sim.HexToAddress
  ErrAdminProposalKeyCountMismatch := sim.ErrAdminProposalKeyCountMismatch
  AddProposalKeyTransaction := sim.AddProposalKeyTransaction

/-- A run in which the admin row exists, the check reports a mismatch, one key is
counted, the grow transaction succeeds, and the count read afterwards is still 1. -/
def stillShort : World :=
  { lookups := [({ Address := "0xf8d6e0586b0a20c7" }, none)]
    inserts := []
    checks := [some sim.ErrAdminProposalKeyCountMismatch]
    inits := [(1, none), (1, none)]
    creates := [none]
    published := [] }

/-- A run in which the admin row exists, the check reports a mismatch and exactly
the three keys wanted by `sim.cfg3` are counted. -/
def equalCount : World :=
  { lookups := [({ Address := "0xf8d6e0586b0a20c7" }, none)]
    inserts := []
    checks := [some sim.ErrAdminProposalKeyCountMismatch]
    inits := [(3, none)]
    creates := [some (GoError.new 8 "never submitted")]
    published := [] }

/-- The world `stillShort` once the grow transaction has been submitted. -/
def stillShortGrown : World :=
  { lookups := [], inserts := [], checks := [], inits := [(1, none)], creates := [],
    published := [] }

end mock

/-! ## Package `jobs`: `Service.Details` -/

namespace http

/-- Go `http.StatusBadRequest`. -/
def StatusBadRequest : Nat := 400

/-- Go `http.StatusNotFound`. -/
def StatusNotFound : Nat := 404

end http

namespace uuid

/-- The type `uuid.UUID` of the UUID library (sixteen bytes). -/
structure UUID where
  bytes : List Nat
  deriving DecidableEq, Repr

end uuid

namespace errors

/-- The `errors.RequestError` of the repository as `Details` builds it: a status
code and an error made by `fmt.Errorf` from a fixed text. -/
structure RequestError where
  StatusCode : Nat
  Err : String
  deriving DecidableEq, Repr

end errors

namespace jobs

/-- The `error` values `Details` can return: a `*errors.RequestError` it built, or
the error of the job store handed on unchanged. -/
inductive ServiceError where
  | request (r : errors.RequestError)
  | store (err : GoError)
  deriving DecidableEq, Repr

/-- The collaborators of `jobs.Service`: the job store `db` (its method `Job`) as
a function of the world `W`, the library function `uuid.Parse`, and the zero value
of the type `Job`, which is `J` here. -/
structure Service (W J : Type) where
  dbJob : uuid.UUID → W → (J × Option GoError) × W
  uuidParse : String → uuid.UUID × Option GoError
  zeroJob : J

/-- The results of `Details`, the world after the call and the ids the job store
was queried for. -/
structure Outcome (W J : Type) where
  result : J
  err : Option ServiceError
  world : W
  queries : List uuid.UUID

/-- The method `Service.Details` (lines 29-52). -/
def Service.Details {W J : Type} (s : Service W J) (jobId : String) (w : W) : Outcome W J :=
  match s.uuidParse jobId with
  | (_, some _) =>
    ⟨s.zeroJob, some (.request { StatusCode := http.StatusBadRequest, Err := "invalid job id" }),
      w, []⟩
  | (id, none) =>
    match s.dbJob id w with
    | ((result, some err), w1) =>
      if err.Error = "record not found" then
        ⟨result, some (.request { StatusCode := http.StatusNotFound, Err := "job not found" }),
          w1, [id]⟩
      else
        ⟨result, some (.store err), w1, [id]⟩
    | ((result, none), w1) => ⟨result, none, w1, [id]⟩

/-- The request error `InvalidID`. -/
def InvalidID : ServiceError :=
  .request { StatusCode := 400, Err := "invalid job id" }

/-- The request error `NotFound`. -/
def NotFound : ServiceError :=
  .request { StatusCode := 404, Err := "job not found" }

/-- Whether the job store reports that no job with the id exists: its error reads
"record not found" (line 42). -/
def reportsNoJob : Option GoError → Bool
  | some err => decide (err.Error = "record not found")
  | none => false

/-- A job as the tests read it: its id, state and error text. -/
structure SimJob where
  ID : uuid.UUID
  State : Nat
  Error : String
  deriving DecidableEq, Repr

/-- The value of a hexadecimal digit, if the character is one. -/
def hexValue (c : Char) : Option Nat :=
  let n := c.toNat
  if 48 ≤ n ∧ n ≤ 57 then some (n - 48)
  else if 97 ≤ n ∧ n ≤ 102 then some (n - 87)
  else if 65 ≤ n ∧ n ≤ 70 then some (n - 55)
  else none

/-- The bytes written by consecutive pairs of hexadecimal digits. -/
def hexBytes : List Char → Option (List Nat)
  | [] => some []
  | [_] => none
  | c :: d :: rest =>
    match hexValue c, hexValue d, hexBytes rest with
    | some x, some y, some bs => some ((16 * x + y) :: bs)
    | _, _, _ => none

/-- The error `uuid.Parse` returns for a text of a wrong form. -/
def ErrInvalidFormat : GoError := GoError.new 3 "invalid UUID format"

/-- The form `xxxxxxxx-xxxx-xxxx-xxxx-xxxxxxxxxxxx`, read from the first 36
characters: hyphens at positions 8, 13, 18 and 23, hexadecimal digits elsewhere. -/
def parseHyphenated (l : List Char) : uuid.UUID × Option GoError :=
  if l.get? 8 = some '-' ∧ l.get? 13 = some '-' ∧ l.get? 18 = some '-'
      ∧ l.get? 23 = some '-' then
    match hexBytes (l.take 8 ++ (l.drop 9).take 4 ++ (l.drop 14).take 4 ++ (l.drop 19).take 4
        ++ (l.drop 24).take 12) with
    | some bs => ({ bytes := bs }, none)
    | none => ({ bytes := [] }, some ErrInvalidFormat)
  else
    ({ bytes := [] }, some ErrInvalidFormat)

/-- A stand-in for `uuid.Parse` of the UUID library, on ASCII text, after the four
forms the library accepts: the hyphenated form of 36 characters, the same after
`urn:uuid:` (in any case), the same after one opening character (the braced form),
and 32 hexadecimal digits; digits in either case give the same bytes. -/
def simParse (s : String) : uuid.UUID × Option GoError :=
  let l := s.data
  if l.length = 36 then parseHyphenated l
  else if l.length = 36 + 9 then
    if (l.take 9).map Char.toLower = "urn:uuid:".data then parseHyphenated (l.drop 9)
    else ({ bytes := [] }, some (GoError.new 4 "invalid urn prefix"))
  else if l.length = 36 + 2 then parseHyphenated (l.drop 1)
  else if l.length = 32 then
    match hexBytes l with
    | some bs => ({ bytes := bs }, none)
    | none => ({ bytes := [] }, some ErrInvalidFormat)
  else ({ bytes := [] }, some (GoError.new 5 "invalid UUID length"))

/-- Modelled from the spec: the job store's lookup (`Store.Job`, not in the embedded
files), section 6: repository-style CRUD for `Job` with a distinguishable "not
found" condition.  The world is the list of stored jobs. -/
def simJob (id : uuid.UUID) (w : List SimJob) : (SimJob × Option GoError) × List SimJob :=
  match w.find? (fun j => decide (j.ID = id)) with
  | some j => ((j, none), w)
  | none => (({ ID := { bytes := [] }, State := 0, Error := "" },
      some (GoError.new 0 "record not found")), w)

/-- The job service over the simulated job store. -/
def simService : Service (List SimJob) SimJob where
  dbJob := simJob
  uuidParse := simParse
  zeroJob := { ID := { bytes := [] }, State := 0, Error := "" }

/-- The text of a well-formed job id. -/
def goodId : String := "123e4567-e89b-12d3-a456-426614174000"

/-- The job stored under `goodId`. -/
def goodJob : SimJob :=
  { ID := (simParse goodId).1, State := 3, Error := "" }

end jobs

/-! ## The account registry -/

namespace accounts

/-- The kind of an account (spec section 3). -/
inductive AccountKind where
  | Custodial
  | ExternallyOwned
  deriving DecidableEq, Repr

/-- Modelled from the spec: the `Account` record of section 3,
`{address, kind, createdAt}`; the Go type is not in the embedded files. -/
structure RegisteredAccount where
  Address : String
  Kind : AccountKind
  CreatedAt : Nat
  deriving DecidableEq, Repr

/-- The errors of the registry operations (spec section 4.2). -/
inductive RegistryError where
  | AlreadyExists
  | NotDeletable
  deriving DecidableEq, Repr

/-- The state of the account registry: the records, in insertion order, and the
addresses of the `AccountAdded` notifications published so far. -/
structure Registry where
  records : List RegisteredAccount
  notifications : List String
  deriving DecidableEq, Repr

/-- Whether `address` is registered, under any kind. -/
def Registry.registered (r : Registry) (address : String) : Bool :=
  r.records.any (fun a => decide (a.Address = address))

/-- Modelled from the spec: `Service.AddNonCustodialAccount` (not in the embedded
files; `AddExternallyOwned` in section 4.2): fails with `AlreadyExists` if the
address is already registered under any kind; on success registers an
externally-owned account and publishes an `AccountAdded` notification. -/
def AddNonCustodialAccount (now : Nat) (address : String) (r : Registry) :
    (Option RegisteredAccount × Option RegistryError) × Registry :=
  if r.registered address then
    ((none, some .AlreadyExists), r)
  else
    let a : RegisteredAccount :=
      { Address := address, Kind := .ExternallyOwned, CreatedAt := now }
    ((some a, none),
      { records := r.records ++ [a], notifications := r.notifications ++ [address] })

/-- Modelled from the spec: `Service.DeleteNonCustodialAccount` (not in the embedded
files; `DeleteExternallyOwned` in section 4.2): succeeds without change if the
address is absent, fails with `NotDeletable` if it is registered as `Custodial`,
and otherwise removes the address fully. -/
def DeleteNonCustodialAccount (address : String) (r : Registry) :
    Option RegistryError × Registry :=
  match r.records.find? (fun a => decide (a.Address = address)) with
  | none => (none, r)
  | some a =>
    match a.Kind with
    | .Custodial => (some .NotDeletable, r)
    | .ExternallyOwned =>
      (none, { r with records := r.records.filter (fun b => !decide (b.Address = address)) })

/-- A registry holding one custodial account. -/
def oneCustodial : Registry :=
  { records := [{ Address := "0xf8d6e0586b0a20c7", Kind := .Custodial, CreatedAt := 1 }],
    notifications := [] }

end accounts

/-! ## Facts shared by the statements about `InitAdminAccount` -/

namespace accounts

variable {W : Type}

theorem uint16Sub_of_lt {a b : Nat} (ha : a < 65536) (hb : b < a) :
    uint16Sub a b = a - b := by
  unfold uint16Sub
  omega

theorem ensureAdminRow_no_create (s : Service W) (w : W) :
    (s.ensureAdminRow w).trace.filter Call.isCreate = [] := by
  unfold Service.ensureAdminRow
  split
  · simp [Call.isCreate]
  · split
    · simp [Call.isCreate]
    · dsimp only
      split <;> simp [Call.isCreate]

theorem ensureAdminRow_no_initKeys (s : Service W) (w : W) :
    (s.ensureAdminRow w).trace.filter Call.isInitKeys = [] := by
  unfold Service.ensureAdminRow
  split
  · simp [Call.isInitKeys]
  · split
    · simp [Call.isInitKeys]
    · dsimp only
      split <;> simp [Call.isInitKeys]

theorem InitAdminAccount_of_row (s : Service W) (w : W)
    (hrow : (s.ensureAdminRow w).err = none) :
    s.InitAdminAccount w =
      ⟨(s.syncProposalKeys (s.ensureAdminRow w).world).err,
        (s.syncProposalKeys (s.ensureAdminRow w).world).world,
        (s.ensureAdminRow w).trace ++ (s.syncProposalKeys (s.ensureAdminRow w).world).trace⟩ := by
  simp [Service.InitAdminAccount, hrow]

theorem InitAdminAccount_of_row_err (s : Service W) (w : W) (e : GoError)
    (hrow : (s.ensureAdminRow w).err = some e) :
    s.InitAdminAccount w = ⟨some e, (s.ensureAdminRow w).world, (s.ensureAdminRow w).trace⟩ := by
  simp [Service.InitAdminAccount, hrow]

theorem ensure_found (s : Service W) (w w1 : W) (a : Account)
    (hlook : s.storeAccount s.cfg.AdminAddress w = ((a, none), w1)) :
    s.ensureAdminRow w = ⟨none, w1, [Call.storeAccount s.cfg.AdminAddress]⟩ := by
  simp [Service.ensureAdminRow, hlook]

theorem ensure_lookup_err (s : Service W) (w w1 : W) (a : Account) (e : GoError)
    (hlook : s.storeAccount s.cfg.AdminAddress w = ((a, some e), w1))
    (hnf : strings.Contains e.Error "record not found" = false) :
    s.ensureAdminRow w = ⟨some e, w1, [Call.storeAccount s.cfg.AdminAddress]⟩ := by
  simp [Service.ensureAdminRow, hlook, hnf]

theorem ensure_insert_err (s : Service W) (w w1 w2 : W) (a : Account) (e e2 : GoError)
    (hlook : s.storeAccount s.cfg.AdminAddress w = ((a, some e), w1))
    (hnf : strings.Contains e.Error "record not found" = true)
    (hins : s.storeInsertAccount { Address := s.cfg.AdminAddress } w1 = (some e2, w2)) :
    s.ensureAdminRow w =
      ⟨some e2, w2, [Call.storeAccount s.cfg.AdminAddress,
        Call.storeInsertAccount { Address := s.cfg.AdminAddress }]⟩ := by
  simp [Service.ensureAdminRow, hlook, hnf, hins]

theorem ensure_insert_ok (s : Service W) (w w1 w2 : W) (a : Account) (e : GoError)
    (hlook : s.storeAccount s.cfg.AdminAddress w = ((a, some e), w1))
    (hnf : strings.Contains e.Error "record not found" = true)
    (hins : s.storeInsertAccount { Address := s.cfg.AdminAddress } w1 = (none, w2)) :
    s.ensureAdminRow w =
      ⟨none, s.accountAddedTrigger { Address := s.HexToAddress s.cfg.AdminAddress } w2,
        [Call.storeAccount s.cfg.AdminAddress,
          Call.storeInsertAccount { Address := s.cfg.AdminAddress },
          Call.accountAddedTrigger { Address := s.HexToAddress s.cfg.AdminAddress }]⟩ := by
  simp [Service.ensureAdminRow, hlook, hnf, hins]

theorem sync_check_ok (s : Service W) (w w1 : W)
    (hcheck : s.kmCheckAdminProposalKeyCount w = (none, w1)) :
    s.syncProposalKeys w = ⟨none, w1, [Call.kmCheckAdminProposalKeyCount]⟩ := by
  simp [Service.syncProposalKeys, hcheck]

theorem sync_check_other (s : Service W) (w w1 : W) (e : GoError)
    (hcheck : s.kmCheckAdminProposalKeyCount w = (some e, w1))
    (hmis : errors.Is e s.ErrAdminProposalKeyCountMismatch = false) :
    s.syncProposalKeys w = ⟨some e, w1, [Call.kmCheckAdminProposalKeyCount]⟩ := by
  simp [Service.syncProposalKeys, hcheck, hmis]

theorem sync_init_err (s : Service W) (w w1 w2 : W) (e e2 : GoError) (k : Nat)
    (hcheck : s.kmCheckAdminProposalKeyCount w = (some e, w1))
    (hmis : errors.Is e s.ErrAdminProposalKeyCountMismatch = true)
    (hinit : s.kmInitAdminProposalKeys w1 = ((k, some e2), w2)) :
    s.syncProposalKeys w =
      ⟨some e2, w2, [Call.kmCheckAdminProposalKeyCount, Call.kmInitAdminProposalKeys]⟩ := by
  simp [Service.syncProposalKeys, hcheck, hmis, hinit]

theorem sync_no_grow (s : Service W) (w w1 w2 : W) (e : GoError) (k : Nat)
    (hcheck : s.kmCheckAdminProposalKeyCount w = (some e, w1))
    (hmis : errors.Is e s.ErrAdminProposalKeyCountMismatch = true)
    (hinit : s.kmInitAdminProposalKeys w1 = ((k, none), w2))
    (hge : s.cfg.AdminProposalKeyCount ≤ k) :
    s.syncProposalKeys w =
      ⟨none, w2, [Call.kmCheckAdminProposalKeyCount, Call.kmInitAdminProposalKeys]⟩ := by
  have h : ¬ k < s.cfg.AdminProposalKeyCount := Nat.not_lt.mpr hge
  simp [Service.syncProposalKeys, hcheck, hmis, hinit, h]

theorem sync_grow_err (s : Service W) (w w1 w2 w3 : W) (e e3 : GoError) (k : Nat)
    (hcheck : s.kmCheckAdminProposalKeyCount w = (some e, w1))
    (hmis : errors.Is e s.ErrAdminProposalKeyCountMismatch = true)
    (hinit : s.kmInitAdminProposalKeys w1 = ((k, none), w2))
    (hlt : k < s.cfg.AdminProposalKeyCount)
    (hcreate : s.transactionsCreate true s.cfg.AdminAddress s.AddProposalKeyTransaction
      [cadence.Value.NewInt s.cfg.AdminKeyIndex,
        cadence.Value.NewUInt16 (uint16Sub s.cfg.AdminProposalKeyCount k)]
      transactions.TransactionType.General w2 = (some e3, w3)) :
    s.syncProposalKeys w =
      ⟨some e3, w3, [Call.kmCheckAdminProposalKeyCount, Call.kmInitAdminProposalKeys,
        s.growCall (uint16Sub s.cfg.AdminProposalKeyCount k)]⟩ := by
  simp [Service.syncProposalKeys, Service.addAdminProposalKeys, Service.growCall, hcheck, hmis,
    hinit, hlt, hcreate]

theorem sync_grow_ok (s : Service W) (w w1 w2 w3 w4 : W) (e : GoError) (k k2 : Nat)
    (e4 : Option GoError)
    (hcheck : s.kmCheckAdminProposalKeyCount w = (some e, w1))
    (hmis : errors.Is e s.ErrAdminProposalKeyCountMismatch = true)
    (hinit : s.kmInitAdminProposalKeys w1 = ((k, none), w2))
    (hlt : k < s.cfg.AdminProposalKeyCount)
    (hcreate : s.transactionsCreate true s.cfg.AdminAddress s.AddProposalKeyTransaction
      [cadence.Value.NewInt s.cfg.AdminKeyIndex,
        cadence.Value.NewUInt16 (uint16Sub s.cfg.AdminProposalKeyCount k)]
      transactions.TransactionType.General w2 = (none, w3))
    (hre : s.kmInitAdminProposalKeys w3 = ((k2, e4), w4)) :
    s.syncProposalKeys w =
      ⟨e4, w4, [Call.kmCheckAdminProposalKeyCount, Call.kmInitAdminProposalKeys,
        s.growCall (uint16Sub s.cfg.AdminProposalKeyCount k), Call.kmInitAdminProposalKeys]⟩ := by
  cases e4 <;>
  simp [Service.syncProposalKeys, Service.addAdminProposalKeys, Service.growCall, hcheck, hmis,
    hinit, hlt, hcreate, hre]

theorem sync_trace_cases (s : Service W) (w : W) :
    (s.syncProposalKeys w).trace = [Call.kmCheckAdminProposalKeyCount]
      ∨ (s.syncProposalKeys w).trace
          = [Call.kmCheckAdminProposalKeyCount, Call.kmInitAdminProposalKeys]
      ∨ (∃ c, (s.syncProposalKeys w).trace
          = [Call.kmCheckAdminProposalKeyCount, Call.kmInitAdminProposalKeys, s.growCall c])
      ∨ (∃ c, (s.syncProposalKeys w).trace
          = [Call.kmCheckAdminProposalKeyCount, Call.kmInitAdminProposalKeys, s.growCall c,
              Call.kmInitAdminProposalKeys]) := by
  rcases hc : s.kmCheckAdminProposalKeyCount w with ⟨oe, w1⟩
  cases oe with
  | none =>
    rw [sync_check_ok s w w1 hc]
    exact Or.inl rfl
  | some e =>
    cases hm : errors.Is e s.ErrAdminProposalKeyCountMismatch with
    | false =>
      rw [sync_check_other s w w1 e hc hm]
      exact Or.inl rfl
    | true =>
      rcases hi : s.kmInitAdminProposalKeys w1 with ⟨⟨k, oe2⟩, w2⟩
      cases oe2 with
      | some e2 =>
        rw [sync_init_err s w w1 w2 e e2 k hc hm hi]
        exact Or.inr (Or.inl rfl)
      | none =>
        by_cases hlt : k < s.cfg.AdminProposalKeyCount
        · rcases hcr : s.transactionsCreate true s.cfg.AdminAddress
              s.AddProposalKeyTransaction
              [cadence.Value.NewInt s.cfg.AdminKeyIndex,
                cadence.Value.NewUInt16 (uint16Sub s.cfg.AdminProposalKeyCount k)]
              transactions.TransactionType.General w2 with ⟨oe3, w3⟩
          cases oe3 with
          | some e3 =>
            rw [sync_grow_err s w w1 w2 w3 e e3 k hc hm hi hlt hcr]
            exact Or.inr (Or.inr (Or.inl ⟨_, rfl⟩))
          | none =>
            rcases hre : s.kmInitAdminProposalKeys w3 with ⟨⟨k2, e4⟩, w4⟩
            rw [sync_grow_ok s w w1 w2 w3 w4 e k k2 e4 hc hm hi hlt hcr hre]
            exact Or.inr (Or.inr (Or.inr ⟨_, rfl⟩))
        · rw [sync_no_grow s w w1 w2 e k hc hm hi (Nat.not_lt.mp hlt)]
          exact Or.inr (Or.inl rfl)

theorem sync_no_insert (s : Service W) (w : W) :
    (s.syncProposalKeys w).trace.filter Call.isInsert = [] := by
  rcases sync_trace_cases s w with h | h | ⟨c, h⟩ | ⟨c, h⟩ <;> rw [h] <;> rfl

theorem sync_no_trigger (s : Service W) (w : W) :
    (s.syncProposalKeys w).trace.filter Call.isTrigger = [] := by
  rcases sync_trace_cases s w with h | h | ⟨c, h⟩ | ⟨c, h⟩ <;> rw [h] <;> rfl

theorem sync_check_mem (s : Service W) (w : W) :
    Call.kmCheckAdminProposalKeyCount ∈ (s.syncProposalKeys w).trace := by
  rcases sync_trace_cases s w with h | h | ⟨c, h⟩ | ⟨c, h⟩ <;> rw [h] <;> simp

theorem ensure_check_not_mem (s : Service W) (w : W) :
    Call.kmCheckAdminProposalKeyCount ∉ (s.ensureAdminRow w).trace := by
  rcases hl : s.storeAccount s.cfg.AdminAddress w with ⟨⟨a, oe⟩, w1⟩
  cases oe with
  | none =>
    rw [ensure_found s w w1 a hl]
    simp
  | some e =>
    cases hnf : strings.Contains e.Error "record not found" with
    | false =>
      rw [ensure_lookup_err s w w1 a e hl hnf]
      simp
    | true =>
      rcases hi : s.storeInsertAccount { Address := s.cfg.AdminAddress } w1 with ⟨oe2, w2⟩
      cases oe2 with
      | some e2 =>
        rw [ensure_insert_err s w w1 w2 a e e2 hl hnf hi]
        simp
      | none =>
        rw [ensure_insert_ok s w w1 w2 a e hl hnf hi]
        simp

theorem sync_preserves {α : Type} (s : Service W) (f : W → α)
    (hcheck : ∀ w, f (s.kmCheckAdminProposalKeyCount w).2 = f w)
    (hinit : ∀ w, f (s.kmInitAdminProposalKeys w).2 = f w)
    (hcreate : ∀ sync address code args t w,
      f (s.transactionsCreate sync address code args t w).2 = f w)
    (w : W) : f (s.syncProposalKeys w).world = f w := by
  rcases hc : s.kmCheckAdminProposalKeyCount w with ⟨oe, w1⟩
  have h1 : f w1 = f w := by
    have := hcheck w
    rw [hc] at this
    exact this
  cases oe with
  | none =>
    rw [sync_check_ok s w w1 hc]
    exact h1
  | some e =>
    cases hm : errors.Is e s.ErrAdminProposalKeyCountMismatch with
    | false =>
      rw [sync_check_other s w w1 e hc hm]
      exact h1
    | true =>
      rcases hi : s.kmInitAdminProposalKeys w1 with ⟨⟨k, oe2⟩, w2⟩
      have h2 : f w2 = f w := by
        have := hinit w1
        rw [hi] at this
        exact this.trans h1
      cases oe2 with
      | some e2 =>
        rw [sync_init_err s w w1 w2 e e2 k hc hm hi]
        exact h2
      | none =>
        by_cases hlt : k < s.cfg.AdminProposalKeyCount
        · rcases hcr : s.transactionsCreate true s.cfg.AdminAddress
              s.AddProposalKeyTransaction
              [cadence.Value.NewInt s.cfg.AdminKeyIndex,
                cadence.Value.NewUInt16 (uint16Sub s.cfg.AdminProposalKeyCount k)]
              transactions.TransactionType.General w2 with ⟨oe3, w3⟩
          have h3 : f w3 = f w := by
            have := hcreate true s.cfg.AdminAddress s.AddProposalKeyTransaction
              [cadence.Value.NewInt s.cfg.AdminKeyIndex,
                cadence.Value.NewUInt16 (uint16Sub s.cfg.AdminProposalKeyCount k)]
              transactions.TransactionType.General w2
            rw [hcr] at this
            exact this.trans h2
          cases oe3 with
          | some e3 =>
            rw [sync_grow_err s w w1 w2 w3 e e3 k hc hm hi hlt hcr]
            exact h3
          | none =>
            rcases hre : s.kmInitAdminProposalKeys w3 with ⟨⟨k2, e4⟩, w4⟩
            rw [sync_grow_ok s w w1 w2 w3 w4 e k k2 e4 hc hm hi hlt hcr hre]
            have := hinit w3
            rw [hre] at this
            exact this.trans h3
        · rw [sync_no_grow s w w1 w2 e k hc hm hi (Nat.not_lt.mp hlt)]
          exact h2

theorem init_found (s : Service W) (w w1 : W) (a : Account)
    (hlook : s.storeAccount s.cfg.AdminAddress w = ((a, none), w1)) :
    s.InitAdminAccount w =
      ⟨(s.syncProposalKeys w1).err, (s.syncProposalKeys w1).world,
        Call.storeAccount s.cfg.AdminAddress :: (s.syncProposalKeys w1).trace⟩ := by
  have h := ensure_found s w w1 a hlook
  rw [InitAdminAccount_of_row s w (by rw [h]), h]
  rfl

theorem init_lookup_err (s : Service W) (w w1 : W) (a : Account) (e : GoError)
    (hlook : s.storeAccount s.cfg.AdminAddress w = ((a, some e), w1))
    (hnf : strings.Contains e.Error "record not found" = false) :
    s.InitAdminAccount w = ⟨some e, w1, [Call.storeAccount s.cfg.AdminAddress]⟩ := by
  have h := ensure_lookup_err s w w1 a e hlook hnf
  rw [InitAdminAccount_of_row_err s w e (by rw [h]), h]

theorem init_insert_err (s : Service W) (w w1 w2 : W) (a : Account) (e e2 : GoError)
    (hlook : s.storeAccount s.cfg.AdminAddress w = ((a, some e), w1))
    (hnf : strings.Contains e.Error "record not found" = true)
    (hins : s.storeInsertAccount { Address := s.cfg.AdminAddress } w1 = (some e2, w2)) :
    s.InitAdminAccount w =
      ⟨some e2, w2, [Call.storeAccount s.cfg.AdminAddress,
        Call.storeInsertAccount { Address := s.cfg.AdminAddress }]⟩ := by
  have h := ensure_insert_err s w w1 w2 a e e2 hlook hnf hins
  rw [InitAdminAccount_of_row_err s w e2 (by rw [h]), h]

theorem init_insert_ok (s : Service W) (w w1 w2 : W) (a : Account) (e : GoError)
    (hlook : s.storeAccount s.cfg.AdminAddress w = ((a, some e), w1))
    (hnf : strings.Contains e.Error "record not found" = true)
    (hins : s.storeInsertAccount { Address := s.cfg.AdminAddress } w1 = (none, w2)) :
    s.InitAdminAccount w =
      ⟨(s.syncProposalKeys
          (s.accountAddedTrigger { Address := s.HexToAddress s.cfg.AdminAddress } w2)).err,
        (s.syncProposalKeys
          (s.accountAddedTrigger { Address := s.HexToAddress s.cfg.AdminAddress } w2)).world,
        [Call.storeAccount s.cfg.AdminAddress,
          Call.storeInsertAccount { Address := s.cfg.AdminAddress },
          Call.accountAddedTrigger { Address := s.HexToAddress s.cfg.AdminAddress }]
          ++ (s.syncProposalKeys
            (s.accountAddedTrigger
              { Address := s.HexToAddress s.cfg.AdminAddress } w2)).trace⟩ := by
  have h := ensure_insert_ok s w w1 w2 a e hlook hnf hins
  rw [InitAdminAccount_of_row s w (by rw [h]), h]

end accounts

/-! ## Facts about the simulated collaborators -/

namespace sim

theorem next_keyCount (w : World) : w.next.2.keyCount = w.keyCount := by
  unfold World.next
  split <;> rfl

theorem next_rows (w : World) : w.next.2.rows = w.rows := by
  unfold World.next
  split <;> rfl

theorem next_cases (w : World) (f : Option GoError) (w1 : World) (h : w.next = (f, w1)) :
    w1.keyCount = w.keyCount ∧ w1.rows = w.rows := by
  have h1 := next_keyCount w
  have h2 := next_rows w
  rw [h] at h1 h2
  exact ⟨h1, h2⟩

theorem storeAccount_keyCount (address : String) (w : World) :
    (storeAccount address w).2.keyCount = w.keyCount := by
  unfold storeAccount
  rcases h : w.next with ⟨f, w1⟩
  have hk := (next_cases w f w1 h).1
  cases f with
  | some e => simpa using hk
  | none =>
    dsimp only
    split <;> simpa using hk

theorem storeAccount_found (address : String) (w w1 : World) (a : accounts.Account)
    (h : storeAccount address w = ((a, none), w1)) : w1.hasRow address = true := by
  unfold storeAccount at h
  rcases hn : w.next with ⟨f, w0⟩
  rw [hn] at h
  cases f with
  | some e => simp at h
  | none =>
    dsimp only at h
    split at h
    · rename_i b hb
      simp only [Prod.mk.injEq, and_true] at h
      rw [← h.2]
      have hmem := List.mem_of_find?_eq_some hb
      have hp := List.find?_some hb
      unfold World.hasRow
      rw [List.any_eq_true]
      exact ⟨b, hmem, hp⟩
    · simp at h

theorem storeInsertAccount_keyCount (a : accounts.Account) (w : World) :
    (storeInsertAccount a w).2.keyCount = w.keyCount := by
  unfold storeInsertAccount
  rcases h : w.next with ⟨f, w1⟩
  have hk := (next_cases w f w1 h).1
  cases f with
  | some e => simpa using hk
  | none =>
    dsimp only
    split <;> simpa using hk

theorem storeInsertAccount_ok (a : accounts.Account) (w w1 : World)
    (h : storeInsertAccount a w = (none, w1)) : w1.hasRow a.Address = true := by
  unfold storeInsertAccount at h
  rcases hn : w.next with ⟨f, w0⟩
  rw [hn] at h
  cases f with
  | some e => simp at h
  | none =>
    dsimp only at h
    split at h
    · simp at h
    · simp only [Prod.mk.injEq, true_and] at h
      rw [← h]
      simp [World.hasRow]

theorem accountAddedTrigger_hasRow (p : accounts.AccountAddedPayload) (w : World)
    (address : String) : (accountAddedTrigger p w).hasRow address = w.hasRow address := rfl

theorem kmCheck_keyCount (desired : Nat) (w : World) :
    (kmCheckAdminProposalKeyCount desired w).2.keyCount = w.keyCount := by
  unfold kmCheckAdminProposalKeyCount
  rcases h : w.next with ⟨f, w1⟩
  have hk := (next_cases w f w1 h).1
  cases f with
  | some e => simpa using hk
  | none =>
    dsimp only
    split <;> simpa using hk

theorem kmCheck_none (desired : Nat) (w w1 : World)
    (h : kmCheckAdminProposalKeyCount desired w = (none, w1)) : w.keyCount = desired := by
  unfold kmCheckAdminProposalKeyCount at h
  rcases hn : w.next with ⟨f, w0⟩
  have hk := (next_cases w f w0 hn).1
  rw [hn] at h
  cases f with
  | some e => simp at h
  | none =>
    dsimp only at h
    split at h
    · rename_i heq
      rw [← hk]
      exact heq
    · simp at h

theorem kmInit_keyCount (w : World) : (kmInitAdminProposalKeys w).2.keyCount = w.keyCount := by
  unfold kmInitAdminProposalKeys
  rcases h : w.next with ⟨f, w1⟩
  have hk := (next_cases w f w1 h).1
  cases f <;> simpa using hk

theorem kmInit_ok (w w1 : World) (k : Nat)
    (h : kmInitAdminProposalKeys w = ((k, none), w1)) : k = w.keyCount % 65536 := by
  unfold kmInitAdminProposalKeys at h
  rcases hn : w.next with ⟨f, w0⟩
  have hk := (next_cases w f w0 hn).1
  rw [hn] at h
  cases f with
  | some e => simp at h
  | none =>
    simp only [Prod.mk.injEq, and_true] at h
    rw [← hk, ← h.1]

theorem create_err (c : String) (sync : Bool) (address code : String)
    (args : List cadence.Value) (t : transactions.TransactionType) (w w1 : World) (e : GoError)
    (h : transactionsCreate c sync address code args t w = (some e, w1)) :
    w1.keyCount = w.keyCount := by
  unfold transactionsCreate at h
  rcases hn : w.next with ⟨f, w0⟩
  have hk := (next_cases w f w0 hn).1
  rw [hn] at h
  cases f with
  | some e0 =>
    simp only [Prod.mk.injEq] at h
    rw [← h.2]
    exact hk
  | none =>
    dsimp only at h
    split at h
    · split at h <;> simp at h
    · simp at h

theorem create_ok (c : String) (sync : Bool) (address : String) (x : cadence.Value) (d : Nat)
    (t : transactions.TransactionType) (w w1 : World)
    (h : transactionsCreate c sync address c [x, cadence.Value.NewUInt16 d] t w = (none, w1)) :
    w1.keyCount = w.keyCount + d := by
  unfold transactionsCreate at h
  rcases hn : w.next with ⟨f, w0⟩
  have hk := (next_cases w f w0 hn).1
  rw [hn] at h
  cases f with
  | some e0 => simp at h
  | none =>
    simp only [if_true, Prod.mk.injEq, true_and] at h
    rw [← h]
    simp [hk]

theorem ensureAdminRow_keyCount (cfg : accounts.Config) (w : World) :
    ((service cfg).ensureAdminRow w).world.keyCount = w.keyCount := by
  have h1 := storeAccount_keyCount cfg.AdminAddress w
  rcases hl : (service cfg).storeAccount (service cfg).cfg.AdminAddress w with ⟨⟨a, oe⟩, w1⟩
  have hl2 : storeAccount cfg.AdminAddress w = ((a, oe), w1) := hl
  rw [hl2] at h1
  cases oe with
  | none =>
    rw [accounts.ensure_found _ w w1 a hl]
    exact h1
  | some e =>
    cases hnf : strings.Contains e.Error "record not found" with
    | false =>
      rw [accounts.ensure_lookup_err _ w w1 a e hl hnf]
      exact h1
    | true =>
      have h2 := storeInsertAccount_keyCount { Address := cfg.AdminAddress } w1
      rcases hi : (service cfg).storeInsertAccount
          { Address := (service cfg).cfg.AdminAddress } w1 with ⟨oe2, w2⟩
      have hi2 : storeInsertAccount { Address := cfg.AdminAddress } w1 = (oe2, w2) := hi
      rw [hi2] at h2
      cases oe2 with
      | some e2 =>
        rw [accounts.ensure_insert_err _ w w1 w2 a e e2 hl hnf hi]
        exact h2.trans h1
      | none =>
        rw [accounts.ensure_insert_ok _ w w1 w2 a e hl hnf hi]
        exact h2.trans h1

theorem ensureAdminRow_hasRow (cfg : accounts.Config) (w : World)
    (hrow : ((service cfg).ensureAdminRow w).err = none) :
    ((service cfg).ensureAdminRow w).world.hasRow cfg.AdminAddress = true := by
  rcases hl : (service cfg).storeAccount (service cfg).cfg.AdminAddress w with ⟨⟨a, oe⟩, w1⟩
  have hl2 : storeAccount cfg.AdminAddress w = ((a, oe), w1) := hl
  cases oe with
  | none =>
    rw [accounts.ensure_found _ w w1 a hl]
    exact storeAccount_found _ _ _ _ hl2
  | some e =>
    cases hnf : strings.Contains e.Error "record not found" with
    | false =>
      rw [accounts.ensure_lookup_err _ w w1 a e hl hnf] at hrow
      simp at hrow
    | true =>
      rcases hi : (service cfg).storeInsertAccount
          { Address := (service cfg).cfg.AdminAddress } w1 with ⟨oe2, w2⟩
      have hi2 : storeInsertAccount { Address := cfg.AdminAddress } w1 = (oe2, w2) := hi
      cases oe2 with
      | some e2 =>
        rw [accounts.ensure_insert_err _ w w1 w2 a e e2 hl hnf hi] at hrow
        simp at hrow
      | none =>
        rw [accounts.ensure_insert_ok _ w w1 w2 a e hl hnf hi]
        exact storeInsertAccount_ok _ _ _ hi2

theorem sync_short (cfg : accounts.Config) (w : World)
    (hD : cfg.AdminProposalKeyCount < 65536) (hA : w.keyCount < cfg.AdminProposalKeyCount) :
    (((service cfg).syncProposalKeys w).err ≠ none
        ∧ ((service cfg).syncProposalKeys w).world.keyCount = w.keyCount)
      ∨ ((service cfg).syncProposalKeys w).world.keyCount = cfg.AdminProposalKeyCount := by
  rcases hc : (service cfg).kmCheckAdminProposalKeyCount w with ⟨oe, w1⟩
  have hc2 : kmCheckAdminProposalKeyCount cfg.AdminProposalKeyCount w = (oe, w1) := hc
  have hk1 : w1.keyCount = w.keyCount := by
    have := kmCheck_keyCount cfg.AdminProposalKeyCount w
    rw [hc2] at this
    exact this
  cases oe with
  | none =>
    have := kmCheck_none _ _ _ hc2
    omega
  | some e =>
    cases hm : errors.Is e (service cfg).ErrAdminProposalKeyCountMismatch with
    | false =>
      rw [accounts.sync_check_other _ w w1 e hc hm]
      exact Or.inl ⟨by simp, hk1⟩
    | true =>
      rcases hi : (service cfg).kmInitAdminProposalKeys w1 with ⟨⟨k, oe2⟩, w2⟩
      have hi2 : kmInitAdminProposalKeys w1 = ((k, oe2), w2) := hi
      have hk2 : w2.keyCount = w.keyCount := by
        have := kmInit_keyCount w1
        rw [hi2] at this
        exact this.trans hk1
      cases oe2 with
      | some e2 =>
        rw [accounts.sync_init_err _ w w1 w2 e e2 k hc hm hi]
        exact Or.inl ⟨by simp, hk2⟩
      | none =>
        have hk : k = w.keyCount := by
          have := kmInit_ok _ _ _ hi2
          rw [hk1] at this
          omega
        have hlt : k < (service cfg).cfg.AdminProposalKeyCount := by
          rw [hk]
          exact hA
        rcases hcr : (service cfg).transactionsCreate true (service cfg).cfg.AdminAddress
            (service cfg).AddProposalKeyTransaction
            [cadence.Value.NewInt (service cfg).cfg.AdminKeyIndex,
              cadence.Value.NewUInt16 (uint16Sub (service cfg).cfg.AdminProposalKeyCount k)]
            transactions.TransactionType.General w2 with ⟨oe3, w3⟩
        have hcr2 : transactionsCreate AddProposalKeyTransaction true cfg.AdminAddress
            AddProposalKeyTransaction
            [cadence.Value.NewInt cfg.AdminKeyIndex,
              cadence.Value.NewUInt16 (uint16Sub cfg.AdminProposalKeyCount k)]
            transactions.TransactionType.General w2 = (oe3, w3) := hcr
        cases oe3 with
        | some e3 =>
          rw [accounts.sync_grow_err _ w w1 w2 w3 e e3 k hc hm hi hlt hcr]
          exact Or.inl ⟨by simp, (create_err _ _ _ _ _ _ _ _ _ hcr2).trans hk2⟩
        | none =>
          have hk3 : w3.keyCount = cfg.AdminProposalKeyCount := by
            have h3 := create_ok _ _ _ _ _ _ _ _ hcr2
            have hs : uint16Sub cfg.AdminProposalKeyCount k = cfg.AdminProposalKeyCount - k :=
              accounts.uint16Sub_of_lt hD hlt
            have hlt2 : k < cfg.AdminProposalKeyCount := hlt
            rw [h3, hk2, hs]
            omega
          rcases hre : (service cfg).kmInitAdminProposalKeys w3 with ⟨⟨k2, e4⟩, w4⟩
          have hre2 : kmInitAdminProposalKeys w3 = ((k2, e4), w4) := hre
          rw [accounts.sync_grow_ok _ w w1 w2 w3 w4 e k k2 e4 hc hm hi hlt hcr hre]
          refine Or.inr ?_
          have := kmInit_keyCount w3
          rw [hre2] at this
          exact this.trans hk3

theorem sync_not_short (cfg : accounts.Config) (w : World)
    (hw : w.keyCount < 65536) (hA : cfg.AdminProposalKeyCount ≤ w.keyCount) :
    ((service cfg).syncProposalKeys w).world.keyCount = w.keyCount
      ∧ ((service cfg).syncProposalKeys w).trace.filter accounts.Call.isCreate = [] := by
  rcases hc : (service cfg).kmCheckAdminProposalKeyCount w with ⟨oe, w1⟩
  have hc2 : kmCheckAdminProposalKeyCount cfg.AdminProposalKeyCount w = (oe, w1) := hc
  have hk1 : w1.keyCount = w.keyCount := by
    have := kmCheck_keyCount cfg.AdminProposalKeyCount w
    rw [hc2] at this
    exact this
  cases oe with
  | none =>
    rw [accounts.sync_check_ok _ w w1 hc]
    exact ⟨hk1, by simp [accounts.Call.isCreate]⟩
  | some e =>
    cases hm : errors.Is e (service cfg).ErrAdminProposalKeyCountMismatch with
    | false =>
      rw [accounts.sync_check_other _ w w1 e hc hm]
      exact ⟨hk1, by simp [accounts.Call.isCreate]⟩
    | true =>
      rcases hi : (service cfg).kmInitAdminProposalKeys w1 with ⟨⟨k, oe2⟩, w2⟩
      have hi2 : kmInitAdminProposalKeys w1 = ((k, oe2), w2) := hi
      have hk2 : w2.keyCount = w.keyCount := by
        have := kmInit_keyCount w1
        rw [hi2] at this
        exact this.trans hk1
      cases oe2 with
      | some e2 =>
        rw [accounts.sync_init_err _ w w1 w2 e e2 k hc hm hi]
        exact ⟨hk2, by simp [accounts.Call.isCreate]⟩
      | none =>
        have hk : k = w.keyCount := by
          have := kmInit_ok _ _ _ hi2
          rw [hk1] at this
          omega
        have hge : (service cfg).cfg.AdminProposalKeyCount ≤ k := by
          rw [hk]
          exact hA
        rw [accounts.sync_no_grow _ w w1 w2 e k hc hm hi hge]
        exact ⟨hk2, by simp [accounts.Call.isCreate]⟩

theorem next_store (w : World) (f : Option GoError) (w1 : World) (h : w.next = (f, w1)) :
    w1.rows = w.rows ∧ w1.events = w.events := by
  unfold World.next at h
  split at h
  · simp only [Prod.mk.injEq] at h
    rw [← h.2]
    exact ⟨rfl, rfl⟩
  · simp only [Prod.mk.injEq] at h
    rw [← h.2]
    exact ⟨rfl, rfl⟩

theorem storeAccount_store (address : String) (w : World) :
    (storeAccount address w).2.rows = w.rows ∧ (storeAccount address w).2.events = w.events := by
  unfold storeAccount
  rcases h : w.next with ⟨f, w1⟩
  have hk := next_store w f w1 h
  cases f with
  | some e => simpa using hk
  | none =>
    dsimp only
    split <;> simpa using hk

theorem storeInsertAccount_store (a : accounts.Account) (w : World) :
    (storeInsertAccount a w).2.events = w.events
      ∧ ((storeInsertAccount a w).1 = none → (storeInsertAccount a w).2.rows = w.rows ++ [a])
      ∧ ((storeInsertAccount a w).1 ≠ none → (storeInsertAccount a w).2.rows = w.rows) := by
  unfold storeInsertAccount
  rcases h : w.next with ⟨f, w1⟩
  have hk := next_store w f w1 h
  cases f with
  | some e => simp [hk.1, hk.2]
  | none =>
    dsimp only
    split <;> simp [hk.1, hk.2]

theorem kmCheck_store (desired : Nat) (w : World) :
    (kmCheckAdminProposalKeyCount desired w).2.rows = w.rows
      ∧ (kmCheckAdminProposalKeyCount desired w).2.events = w.events := by
  unfold kmCheckAdminProposalKeyCount
  rcases h : w.next with ⟨f, w1⟩
  have hk := next_store w f w1 h
  cases f with
  | some e => simpa using hk
  | none =>
    dsimp only
    split <;> simpa using hk

theorem kmInit_store (w : World) :
    (kmInitAdminProposalKeys w).2.rows = w.rows
      ∧ (kmInitAdminProposalKeys w).2.events = w.events := by
  unfold kmInitAdminProposalKeys
  rcases h : w.next with ⟨f, w1⟩
  have hk := next_store w f w1 h
  cases f <;> simpa using hk

theorem create_store (c : String) (sync : Bool) (address code : String)
    (args : List cadence.Value) (t : transactions.TransactionType) (w : World) :
    (transactionsCreate c sync address code args t w).2.rows = w.rows
      ∧ (transactionsCreate c sync address code args t w).2.events = w.events := by
  unfold transactionsCreate
  rcases h : w.next with ⟨f, w1⟩
  have hk := next_store w f w1 h
  cases f with
  | some e => simpa using hk
  | none =>
    dsimp only
    split
    · split <;> simpa using hk
    · simpa using hk

theorem sync_store (cfg : accounts.Config) (w : World) :
    ((service cfg).syncProposalKeys w).world.rows = w.rows
      ∧ ((service cfg).syncProposalKeys w).world.events = w.events := by
  have h := accounts.sync_preserves (service cfg) (fun u : World => (u.rows, u.events))
    (fun u => by
      have := kmCheck_store cfg.AdminProposalKeyCount u
      exact Prod.ext this.1 this.2)
    (fun u => by
      have := kmInit_store u
      exact Prod.ext this.1 this.2)
    (fun sync address code args t u => by
      have := create_store AddProposalKeyTransaction sync address code args t u
      exact Prod.ext this.1 this.2)
    w
  simp only [Prod.mk.injEq] at h
  exact h

theorem initAdminAccount_store (cfg : accounts.Config) (v : World) :
    ((service cfg).InitAdminAccount v).world.events
        = v.events ++
          (if accounts.lookupNotFound (storeAccount cfg.AdminAddress v).1.2 = true
              ∧ (storeInsertAccount { Address := cfg.AdminAddress }
                  (storeAccount cfg.AdminAddress v).2).1 = none
            then [{ Address := HexToAddress cfg.AdminAddress }] else [])
      ∧ ((service cfg).InitAdminAccount v).world.rows
        = v.rows ++
          (if accounts.lookupNotFound (storeAccount cfg.AdminAddress v).1.2 = true
              ∧ (storeInsertAccount { Address := cfg.AdminAddress }
                  (storeAccount cfg.AdminAddress v).2).1 = none
            then [{ Address := cfg.AdminAddress }] else []) := by
  have hs := storeAccount_store cfg.AdminAddress v
  rcases hl : (service cfg).storeAccount (service cfg).cfg.AdminAddress v with ⟨⟨a, oe⟩, w1⟩
  have hl2 : storeAccount cfg.AdminAddress v = ((a, oe), w1) := hl
  rw [hl2] at hs ⊢
  have hs1 : w1.rows = v.rows := hs.1
  have hs2 : w1.events = v.events := hs.2
  cases oe with
  | none =>
    rw [accounts.init_found _ v w1 a hl]
    have := sync_store cfg w1
    simp [accounts.lookupNotFound, this.1, this.2, hs1, hs2]
  | some e =>
    cases hnf : strings.Contains e.Error "record not found" with
    | false =>
      rw [accounts.init_lookup_err _ v w1 a e hl hnf]
      simp [accounts.lookupNotFound, hnf, hs1, hs2]
    | true =>
      have hi0 := storeInsertAccount_store { Address := cfg.AdminAddress } w1
      rcases hi : (service cfg).storeInsertAccount
          { Address := (service cfg).cfg.AdminAddress } w1 with ⟨oe2, w2⟩
      have hi2 : storeInsertAccount { Address := cfg.AdminAddress } w1 = (oe2, w2) := hi
      rw [hi2] at hi0
      cases oe2 with
      | some e2 =>
        rw [accounts.init_insert_err _ v w1 w2 a e e2 hl hnf hi]
        have hr := hi0.2.2 (by simp)
        simp only [] at hr hi0
        simp [accounts.lookupNotFound, hnf, hi2, hs1, hs2, hr, hi0.1]
      | none =>
        rw [accounts.init_insert_ok _ v w1 w2 a e hl hnf hi]
        have hr := hi0.2.1 rfl
        simp only [] at hr hi0
        have hsy := sync_store cfg ((service cfg).accountAddedTrigger
          { Address := (service cfg).HexToAddress (service cfg).cfg.AdminAddress } w2)
        have ht : ((service cfg).accountAddedTrigger
            { Address := (service cfg).HexToAddress (service cfg).cfg.AdminAddress } w2).events
            = w2.events ++ [{ Address := HexToAddress cfg.AdminAddress }] := rfl
        have ht2 : ((service cfg).accountAddedTrigger
            { Address := (service cfg).HexToAddress (service cfg).cfg.AdminAddress } w2).rows
            = w2.rows := rfl
        simp [accounts.lookupNotFound, hnf, hi2, hs1, hs2, hr, hi0.1, hsy.1, hsy.2, ht, ht2]

theorem initAdminAccount_hasRow (cfg : accounts.Config) (v : World)
    (hmem : accounts.Call.kmCheckAdminProposalKeyCount
      ∈ ((service cfg).InitAdminAccount v).trace) :
    ((service cfg).InitAdminAccount v).world.hasRow cfg.AdminAddress = true := by
  cases hrow : ((service cfg).ensureAdminRow v).err with
  | some e =>
    rw [accounts.InitAdminAccount_of_row_err _ v e hrow] at hmem
    exact absurd hmem (accounts.ensure_check_not_mem _ v)
  | none =>
    rw [accounts.InitAdminAccount_of_row _ v hrow]
    have h := ensureAdminRow_hasRow cfg v hrow
    have hsy := sync_store cfg ((service cfg).ensureAdminRow v).world
    unfold World.hasRow at h ⊢
    simp only [hsy.1]
    exact h

end sim

/-! ## `InitAdminAccount`: the proposal key steps -/

namespace accounts

variable {W : Type}

/-- C2 (as the code behaves): after a successful grow transaction `InitAdminAccount`
calls `InitAdminProposalKeys` once more and returns exactly the error of that call,
ending in the world that call leaves; the count `k2` it reads is not compared with
the desired count. -/
theorem initAdminAccount_after_grow_returns_reinit_error (s : Service W) (w w1 w2 w3 w4 : W)
    (e : GoError) (k k2 : Nat) (e4 : Option GoError)
    (hrow : (s.ensureAdminRow w).err = none)
    (hcheck : s.kmCheckAdminProposalKeyCount (s.ensureAdminRow w).world = (some e, w1))
    (hmis : errors.Is e s.ErrAdminProposalKeyCountMismatch = true)
    (hinit : s.kmInitAdminProposalKeys w1 = ((k, none), w2))
    (hlt : k < s.cfg.AdminProposalKeyCount)
    (hcreate : s.transactionsCreate true s.cfg.AdminAddress s.AddProposalKeyTransaction
      [cadence.Value.NewInt s.cfg.AdminKeyIndex,
        cadence.Value.NewUInt16 (uint16Sub s.cfg.AdminProposalKeyCount k)]
      transactions.TransactionType.General w2 = (none, w3))
    (hre : s.kmInitAdminProposalKeys w3 = ((k2, e4), w4)) :
    (s.InitAdminAccount w).err = e4 ∧ (s.InitAdminAccount w).world = w4 := by
  rw [InitAdminAccount_of_row s w hrow,
    sync_grow_ok s _ w1 w2 w3 w4 e k k2 e4 hcheck hmis hinit hlt hcreate hre]
  exact ⟨rfl, rfl⟩

/-- C4: when step 1 passes and the count check returns an error `e` that is not the
mismatch error, `InitAdminAccount` returns exactly `e`, ends in the world the
check left, and its trace is that of step 1 followed by the check alone: no
`InitAdminProposalKeys` call and no `transactions.Create` call. -/
theorem initAdminAccount_propagates_check_error (s : Service W) (w w1 : W) (e : GoError)
    (hrow : (s.ensureAdminRow w).err = none)
    (hcheck : s.kmCheckAdminProposalKeyCount (s.ensureAdminRow w).world = (some e, w1))
    (hmis : errors.Is e s.ErrAdminProposalKeyCountMismatch = false) :
    (s.InitAdminAccount w).err = some e
      ∧ (s.InitAdminAccount w).world = w1
      ∧ (s.InitAdminAccount w).trace
          = (s.ensureAdminRow w).trace ++ [Call.kmCheckAdminProposalKeyCount]
      ∧ (s.InitAdminAccount w).trace.filter Call.isInitKeys = []
      ∧ (s.InitAdminAccount w).trace.filter Call.isCreate = [] := by
  rw [InitAdminAccount_of_row s w hrow, sync_check_other s _ w1 e hcheck hmis]
  simp [ensureAdminRow_no_create, ensureAdminRow_no_initKeys, Call.isCreate, Call.isInitKeys]

end accounts

namespace accounts

/-- C3: with the simulated ledger, on which a successful grow transaction of
`delta` raises the key count of the admin account by `delta`, and for every script
of collaborator failures: if the admin account starts with fewer keys than the
desired `uint16` count `D`, `InitAdminAccount` returns an error or ends with
exactly `D` keys, and never ends with more than `D` keys. -/
theorem initAdminAccount_converges_or_fails (cfg : Config) (v : sim.World)
    (hD : cfg.AdminProposalKeyCount < 65536)
    (hA : v.keyCount < cfg.AdminProposalKeyCount) :
    (((sim.service cfg).InitAdminAccount v).err ≠ none
        ∨ ((sim.service cfg).InitAdminAccount v).world.keyCount = cfg.AdminProposalKeyCount)
      ∧ ((sim.service cfg).InitAdminAccount v).world.keyCount ≤ cfg.AdminProposalKeyCount := by
  have hk0 := sim.ensureAdminRow_keyCount cfg v
  cases hrow : ((sim.service cfg).ensureAdminRow v).err with
  | some e =>
    rw [InitAdminAccount_of_row_err _ v e hrow]
    exact ⟨Or.inl (by simp), by simp only [hk0]; omega⟩
  | none =>
    rw [InitAdminAccount_of_row _ v hrow]
    have hA2 : ((sim.service cfg).ensureAdminRow v).world.keyCount
        < cfg.AdminProposalKeyCount := by
      rw [hk0]
      exact hA
    rcases sim.sync_short cfg _ hD hA2 with ⟨he, hk⟩ | hk
    · exact ⟨Or.inl he, by simp only [hk, hk0]; omega⟩
    · exact ⟨Or.inr hk, by simp only [hk]; omega⟩

/-- C5 (as the code behaves): `InitAdminAccount` calls `InsertAccount`, for the admin
address, exactly when the lookup reports the record as not found; when that insert
fails it returns the error of the insert at once, in the world the insert left;
when the insert succeeds it publishes the `AccountAdded` event carrying the admin
address, once, and goes on to the key steps in the world the publication left; when
the lookup finds the row it goes on in the world the lookup left, with no insert
and no event.  With the simulated store and event bus, any run adds exactly that
one event and that one row when the insert succeeds and none otherwise, and after
every run that reaches the key-count check the admin row exists. -/
theorem initAdminAccount_admin_row_and_event :
    (∀ {W : Type} (s : Service W) (w : W),
      ((s.InitAdminAccount w).trace.filter Call.isInsert
          = if lookupNotFound (s.storeAccount s.cfg.AdminAddress w).1.2 = true
            then [Call.storeInsertAccount { Address := s.cfg.AdminAddress }] else [])
        ∧ ((s.InitAdminAccount w).trace.filter Call.isTrigger
          = if lookupNotFound (s.storeAccount s.cfg.AdminAddress w).1.2 = true
              ∧ (s.storeInsertAccount { Address := s.cfg.AdminAddress }
                  (s.storeAccount s.cfg.AdminAddress w).2).1 = none
            then [Call.accountAddedTrigger { Address := s.HexToAddress s.cfg.AdminAddress }]
            else [])
        ∧ (∀ a w1, s.storeAccount s.cfg.AdminAddress w = ((a, none), w1) →
            s.InitAdminAccount w
              = ⟨(s.syncProposalKeys w1).err, (s.syncProposalKeys w1).world,
                  Call.storeAccount s.cfg.AdminAddress :: (s.syncProposalKeys w1).trace⟩)
        ∧ (∀ a e w1 e2 w2, s.storeAccount s.cfg.AdminAddress w = ((a, some e), w1) →
            lookupNotFound (some e) = true →
            s.storeInsertAccount { Address := s.cfg.AdminAddress } w1 = (some e2, w2) →
            s.InitAdminAccount w
              = ⟨some e2, w2, [Call.storeAccount s.cfg.AdminAddress,
                  Call.storeInsertAccount { Address := s.cfg.AdminAddress }]⟩)
        ∧ (∀ a e w1 w2, s.storeAccount s.cfg.AdminAddress w = ((a, some e), w1) →
            lookupNotFound (some e) = true →
            s.storeInsertAccount { Address := s.cfg.AdminAddress } w1 = (none, w2) →
            s.InitAdminAccount w
              = ⟨(s.syncProposalKeys (s.accountAddedTrigger
                    { Address := s.HexToAddress s.cfg.AdminAddress } w2)).err,
                  (s.syncProposalKeys (s.accountAddedTrigger
                    { Address := s.HexToAddress s.cfg.AdminAddress } w2)).world,
                  [Call.storeAccount s.cfg.AdminAddress,
                    Call.storeInsertAccount { Address := s.cfg.AdminAddress },
                    Call.accountAddedTrigger { Address := s.HexToAddress s.cfg.AdminAddress }]
                  ++ (s.syncProposalKeys (s.accountAddedTrigger
                    { Address := s.HexToAddress s.cfg.AdminAddress } w2)).trace⟩))
      ∧ (∀ (cfg : Config) (v : sim.World),
          ((sim.service cfg).InitAdminAccount v).world.events
              = v.events ++
                (if lookupNotFound (sim.storeAccount cfg.AdminAddress v).1.2 = true
                    ∧ (sim.storeInsertAccount { Address := cfg.AdminAddress }
                        (sim.storeAccount cfg.AdminAddress v).2).1 = none
                  then [{ Address := sim.HexToAddress cfg.AdminAddress }] else [])
            ∧ ((sim.service cfg).InitAdminAccount v).world.rows
              = v.rows ++
                (if lookupNotFound (sim.storeAccount cfg.AdminAddress v).1.2 = true
                    ∧ (sim.storeInsertAccount { Address := cfg.AdminAddress }
                        (sim.storeAccount cfg.AdminAddress v).2).1 = none
                  then [{ Address := cfg.AdminAddress }] else [])
            ∧ (Call.kmCheckAdminProposalKeyCount ∈ ((sim.service cfg).InitAdminAccount v).trace →
                ((sim.service cfg).InitAdminAccount v).world.hasRow cfg.AdminAddress = true)) := by
  refine ⟨fun {W} s w => ⟨?_, ?_, ?_, ?_, ?_⟩, fun cfg v =>
    ⟨(sim.initAdminAccount_store cfg v).1, (sim.initAdminAccount_store cfg v).2,
      sim.initAdminAccount_hasRow cfg v⟩⟩
  · rcases hl : s.storeAccount s.cfg.AdminAddress w with ⟨⟨a, oe⟩, w1⟩
    cases oe with
    | none =>
      rw [init_found s w w1 a hl]
      simp [lookupNotFound, Call.isInsert, sync_no_insert]
    | some e =>
      cases hnf : strings.Contains e.Error "record not found" with
      | false =>
        rw [init_lookup_err s w w1 a e hl hnf]
        simp [lookupNotFound, hnf, Call.isInsert]
      | true =>
        rcases hi : s.storeInsertAccount { Address := s.cfg.AdminAddress } w1 with ⟨oe2, w2⟩
        cases oe2 with
        | some e2 =>
          rw [init_insert_err s w w1 w2 a e e2 hl hnf hi]
          simp [lookupNotFound, hnf, Call.isInsert]
        | none =>
          rw [init_insert_ok s w w1 w2 a e hl hnf hi]
          simp [lookupNotFound, hnf, Call.isInsert, sync_no_insert]
  · rcases hl : s.storeAccount s.cfg.AdminAddress w with ⟨⟨a, oe⟩, w1⟩
    cases oe with
    | none =>
      rw [init_found s w w1 a hl]
      simp [lookupNotFound, Call.isTrigger, sync_no_trigger]
    | some e =>
      cases hnf : strings.Contains e.Error "record not found" with
      | false =>
        rw [init_lookup_err s w w1 a e hl hnf]
        simp [lookupNotFound, hnf, Call.isTrigger]
      | true =>
        rcases hi : s.storeInsertAccount { Address := s.cfg.AdminAddress } w1 with ⟨oe2, w2⟩
        cases oe2 with
        | some e2 =>
          rw [init_insert_err s w w1 w2 a e e2 hl hnf hi]
          simp [lookupNotFound, hnf, hi, Call.isTrigger]
        | none =>
          rw [init_insert_ok s w w1 w2 a e hl hnf hi]
          simp [lookupNotFound, hnf, hi, Call.isTrigger, sync_no_trigger]
  · intro a w1 hl
    simp [Service.InitAdminAccount, Service.ensureAdminRow, hl]
  · intro a e w1 e2 w2 hl hnf hi
    simp only [lookupNotFound] at hnf
    simp [Service.InitAdminAccount, Service.ensureAdminRow, hl, hnf, hi]
  · intro a e w1 w2 hl hnf hi
    simp only [lookupNotFound] at hnf
    simp [Service.InitAdminAccount, Service.ensureAdminRow, hl, hnf, hi]

/-- C10: `InitAdminAccount` makes a `transactions.Create` call if and only if step 1
passes, the count check fails with the mismatch error and `InitAdminProposalKeys`
returns, without error, a count below the configured one (0 included); when that
count is at least the configured one, `InitAdminAccount` makes no such call and
returns `nil`, ending in the world `InitAdminProposalKeys` left.  When the count is
below the configured one the call is the grow transaction for the missing keys,
made in the world `InitAdminProposalKeys` left: if it fails, `InitAdminAccount`
returns its error in the world the transaction left; if it succeeds,
`InitAdminAccount` ends in the world, and with the error, of the
`InitAdminProposalKeys` call made in the world the transaction left.  With the
simulated ledger, a run that starts with at least the desired number of keys ends
with the key count it started with. -/
theorem initAdminAccount_grows_iff_short :
    (∀ {W : Type} (s : Service W) (w : W),
      ((s.InitAdminAccount w).trace.filter Call.isCreate ≠ [] ↔
          (s.ensureAdminRow w).err = none ∧
            ∃ e w1 k w2,
              s.kmCheckAdminProposalKeyCount (s.ensureAdminRow w).world = (some e, w1)
                ∧ errors.Is e s.ErrAdminProposalKeyCountMismatch = true
                ∧ s.kmInitAdminProposalKeys w1 = ((k, none), w2)
                ∧ k < s.cfg.AdminProposalKeyCount)
        ∧ (∀ e w1 k w2, (s.ensureAdminRow w).err = none →
            s.kmCheckAdminProposalKeyCount (s.ensureAdminRow w).world = (some e, w1) →
            errors.Is e s.ErrAdminProposalKeyCountMismatch = true →
            s.kmInitAdminProposalKeys w1 = ((k, none), w2) →
            s.cfg.AdminProposalKeyCount ≤ k →
            (s.InitAdminAccount w).err = none ∧ (s.InitAdminAccount w).world = w2
              ∧ (s.InitAdminAccount w).trace.filter Call.isCreate = [])
        ∧ (∀ e w1 k w2 e3 w3, (s.ensureAdminRow w).err = none →
            s.kmCheckAdminProposalKeyCount (s.ensureAdminRow w).world = (some e, w1) →
            errors.Is e s.ErrAdminProposalKeyCountMismatch = true →
            s.kmInitAdminProposalKeys w1 = ((k, none), w2) →
            k < s.cfg.AdminProposalKeyCount →
            s.transactionsCreate true s.cfg.AdminAddress s.AddProposalKeyTransaction
              [cadence.Value.NewInt s.cfg.AdminKeyIndex,
                cadence.Value.NewUInt16 (uint16Sub s.cfg.AdminProposalKeyCount k)]
              transactions.TransactionType.General w2 = (some e3, w3) →
            (s.InitAdminAccount w).err = some e3 ∧ (s.InitAdminAccount w).world = w3
              ∧ (s.InitAdminAccount w).trace.filter Call.isCreate
                = [s.growCall (uint16Sub s.cfg.AdminProposalKeyCount k)])
        ∧ (∀ e w1 k w2 w3 k2 e4 w4, (s.ensureAdminRow w).err = none →
            s.kmCheckAdminProposalKeyCount (s.ensureAdminRow w).world = (some e, w1) →
            errors.Is e s.ErrAdminProposalKeyCountMismatch = true →
            s.kmInitAdminProposalKeys w1 = ((k, none), w2) →
            k < s.cfg.AdminProposalKeyCount →
            s.transactionsCreate true s.cfg.AdminAddress s.AddProposalKeyTransaction
              [cadence.Value.NewInt s.cfg.AdminKeyIndex,
                cadence.Value.NewUInt16 (uint16Sub s.cfg.AdminProposalKeyCount k)]
              transactions.TransactionType.General w2 = (none, w3) →
            s.kmInitAdminProposalKeys w3 = ((k2, e4), w4) →
            (s.InitAdminAccount w).err = e4 ∧ (s.InitAdminAccount w).world = w4
              ∧ (s.InitAdminAccount w).trace.filter Call.isCreate
                = [s.growCall (uint16Sub s.cfg.AdminProposalKeyCount k)]))
      ∧ (∀ (cfg : Config) (v : sim.World), v.keyCount < 65536 →
          cfg.AdminProposalKeyCount ≤ v.keyCount →
          ((sim.service cfg).InitAdminAccount v).world.keyCount = v.keyCount
            ∧ ((sim.service cfg).InitAdminAccount v).trace.filter Call.isCreate = []) := by
  refine ⟨fun {W} s w => ⟨?_, ?_, ?_, ?_⟩, ?_⟩
  · cases hrow : (s.ensureAdminRow w).err with
    | some e0 =>
      rw [InitAdminAccount_of_row_err s w e0 hrow]
      simp [ensureAdminRow_no_create]
    | none =>
      rw [InitAdminAccount_of_row s w hrow]
      simp only [List.filter_append, ensureAdminRow_no_create, List.nil_append, true_and]
      rcases hc : s.kmCheckAdminProposalKeyCount (s.ensureAdminRow w).world with ⟨oe, w1⟩
      cases oe with
      | none =>
        rw [sync_check_ok s _ w1 hc]
        simp [Call.isCreate]
      | some e =>
        cases hm : errors.Is e s.ErrAdminProposalKeyCountMismatch with
        | false =>
          rw [sync_check_other s _ w1 e hc hm]
          have hf : List.filter Call.isCreate [Call.kmCheckAdminProposalKeyCount] = [] := rfl
          rw [hf]
          refine ⟨fun h => absurd rfl h, ?_⟩
          rintro ⟨e', w1', k, w2, h1, h2, _, _⟩
          simp only [Prod.mk.injEq, Option.some.injEq] at h1
          rw [← h1.1, hm] at h2
          exact absurd h2 (by simp)
        | true =>
          rcases hi : s.kmInitAdminProposalKeys w1 with ⟨⟨k, oe2⟩, w2⟩
          cases oe2 with
          | some e2 =>
            rw [sync_init_err s _ w1 w2 e e2 k hc hm hi]
            have hf : List.filter Call.isCreate
                [Call.kmCheckAdminProposalKeyCount, Call.kmInitAdminProposalKeys] = [] := rfl
            rw [hf]
            refine ⟨fun h => absurd rfl h, ?_⟩
            rintro ⟨e', w1', k', w2', h1, _, h3, _⟩
            simp only [Prod.mk.injEq, Option.some.injEq] at h1
            rw [← h1.2, hi] at h3
            simp at h3
          | none =>
            by_cases hlt : k < s.cfg.AdminProposalKeyCount
            · have hex : ∃ e' w1' k' w2', (some e, w1) = (some e', w1')
                  ∧ errors.Is e' s.ErrAdminProposalKeyCountMismatch = true
                  ∧ s.kmInitAdminProposalKeys w1' = ((k', none), w2')
                  ∧ k' < s.cfg.AdminProposalKeyCount := ⟨e, w1, k, w2, rfl, hm, hi, hlt⟩
              rcases hcr : s.transactionsCreate true s.cfg.AdminAddress
                  s.AddProposalKeyTransaction
                  [cadence.Value.NewInt s.cfg.AdminKeyIndex,
                    cadence.Value.NewUInt16 (uint16Sub s.cfg.AdminProposalKeyCount k)]
                  transactions.TransactionType.General w2 with ⟨oe3, w3⟩
              cases oe3 with
              | some e3 =>
                rw [sync_grow_err s _ w1 w2 w3 e e3 k hc hm hi hlt hcr]
                simp only [iff_true_right hex]
                simp [Call.isCreate, Service.growCall]
              | none =>
                rcases hre : s.kmInitAdminProposalKeys w3 with ⟨⟨k2, e4⟩, w4⟩
                rw [sync_grow_ok s _ w1 w2 w3 w4 e k k2 e4 hc hm hi hlt hcr hre]
                simp only [iff_true_right hex]
                simp [Call.isCreate, Service.growCall]
            · rw [sync_no_grow s _ w1 w2 e k hc hm hi (Nat.not_lt.mp hlt)]
              have hf : List.filter Call.isCreate
                  [Call.kmCheckAdminProposalKeyCount, Call.kmInitAdminProposalKeys] = [] := rfl
              rw [hf]
              refine ⟨fun h => absurd rfl h, ?_⟩
              rintro ⟨e', w1', k', w2', h1, _, h3, h4⟩
              simp only [Prod.mk.injEq, Option.some.injEq] at h1
              rw [← h1.2, hi] at h3
              simp only [Prod.mk.injEq, and_true] at h3
              omega
  · intro e w1 k w2 hrow hc hm hi hge
    rw [InitAdminAccount_of_row s w hrow, sync_no_grow s _ w1 w2 e k hc hm hi hge]
    simp [ensureAdminRow_no_create, Call.isCreate]
  · intro e w1 k w2 e3 w3 hrow hc hm hi hlt hcr
    have hrun : s.InitAdminAccount w
        = ⟨some e3, w3, (s.ensureAdminRow w).trace
            ++ [Call.kmCheckAdminProposalKeyCount, Call.kmInitAdminProposalKeys,
              s.growCall (uint16Sub s.cfg.AdminProposalKeyCount k)]⟩ := by
      simp [Service.InitAdminAccount, Service.syncProposalKeys, Service.addAdminProposalKeys,
        Service.growCall, hrow, hc, hm, hi, hlt, hcr]
    rw [hrun]
    simp [ensureAdminRow_no_create, Call.isCreate, Service.growCall]
  · intro e w1 k w2 w3 k2 e4 w4 hrow hc hm hi hlt hcr hre
    have hrun : s.InitAdminAccount w
        = ⟨e4, w4, (s.ensureAdminRow w).trace
            ++ [Call.kmCheckAdminProposalKeyCount, Call.kmInitAdminProposalKeys,
              s.growCall (uint16Sub s.cfg.AdminProposalKeyCount k),
              Call.kmInitAdminProposalKeys]⟩ := by
      cases e4 <;>
      simp [Service.InitAdminAccount, Service.syncProposalKeys, Service.addAdminProposalKeys,
        Service.growCall, hrow, hc, hm, hi, hlt, hcr, hre]
    rw [hrun]
    simp [ensureAdminRow_no_create, Call.isCreate, Service.growCall]
  · intro cfg v hv hge
    have hk0 := sim.ensureAdminRow_keyCount cfg v
    cases hrow : ((sim.service cfg).ensureAdminRow v).err with
    | some e =>
      rw [InitAdminAccount_of_row_err _ v e hrow]
      exact ⟨hk0, ensureAdminRow_no_create _ v⟩
    | none =>
      rw [InitAdminAccount_of_row _ v hrow]
      have h := sim.sync_not_short cfg ((sim.service cfg).ensureAdminRow v).world
        (by rw [hk0]; exact hv) (by rw [hk0]; exact hge)
      refine ⟨h.1.trans hk0, ?_⟩
      simp only [List.filter_append, ensureAdminRow_no_create, List.nil_append]
      exact h.2

end accounts

/-! ## `InitAdminAccount` on concrete runs -/

namespace accounts

/-- C2 fails on the code: with `D = 3`, a grow transaction that succeeds and a
second `InitAdminProposalKeys` that reads one key, which is still short of the
desired three, `InitAdminAccount` returns `nil`. -/
theorem initAdminAccount_still_short_returns_nil :
    ((mock.service sim.cfg3).InitAdminAccount mock.stillShort).trace
        = [Call.storeAccount "0xf8d6e0586b0a20c7", Call.kmCheckAdminProposalKeyCount,
            Call.kmInitAdminProposalKeys, (mock.service sim.cfg3).growCall 2,
            Call.kmInitAdminProposalKeys]
      ∧ ((mock.service sim.cfg3).kmInitAdminProposalKeys
          mock.stillShortGrown).1 = (1, none)
      ∧ 1 < sim.cfg3.AdminProposalKeyCount
      ∧ ((mock.service sim.cfg3).InitAdminAccount mock.stillShort).err = none := by
  decide

/-- The amended C2 at the worked example: the grow transaction succeeds, the second
`InitAdminProposalKeys` returns no error, and so does `InitAdminAccount`. -/
theorem initAdminAccount_after_grow_returns_reinit_error_witness :
    ((sim.service sim.cfg3).InitAdminAccount sim.oneKey).err = none
      ∧ ((sim.service sim.cfg3).InitAdminAccount sim.oneKey).world = sim.threeKeysReady :=
  initAdminAccount_after_grow_returns_reinit_error (sim.service sim.cfg3) sim.oneKey
    sim.oneKeyReady sim.oneKeyReady sim.threeKeysReady sim.threeKeysReady
    sim.ErrAdminProposalKeyCountMismatch 1 3 none (by decide) (by decide) (by decide)
    (by decide) (by decide) (by decide) (by decide)

/-- C3 at the worked example: `D = 3` and a start with one key. -/
theorem initAdminAccount_converges_or_fails_witness :
    (((sim.service sim.cfg3).InitAdminAccount sim.oneKey).err ≠ none
        ∨ ((sim.service sim.cfg3).InitAdminAccount sim.oneKey).world.keyCount = 3)
      ∧ ((sim.service sim.cfg3).InitAdminAccount sim.oneKey).world.keyCount ≤ 3 :=
  initAdminAccount_converges_or_fails sim.cfg3 sim.oneKey (by decide) (by decide)

/-- C4 on a run whose count check fails with "connection refused". -/
theorem initAdminAccount_propagates_check_error_witness :
    ((sim.service sim.cfg3).InitAdminAccount sim.checkFails).err
        = some (GoError.new 7 "connection refused")
      ∧ ((sim.service sim.cfg3).InitAdminAccount sim.checkFails).world = sim.oneKeyReady
      ∧ ((sim.service sim.cfg3).InitAdminAccount sim.checkFails).trace
          = ((sim.service sim.cfg3).ensureAdminRow sim.checkFails).trace
            ++ [Call.kmCheckAdminProposalKeyCount]
      ∧ ((sim.service sim.cfg3).InitAdminAccount sim.checkFails).trace.filter Call.isInitKeys
          = []
      ∧ ((sim.service sim.cfg3).InitAdminAccount sim.checkFails).trace.filter Call.isCreate
          = [] :=
  initAdminAccount_propagates_check_error (sim.service sim.cfg3) sim.checkFails
    sim.oneKeyReady (GoError.new 7 "connection refused") (by decide) (by decide) (by decide)

/-- C5 fails on the code: the lookup reports the admin record as not found, the
insert fails with "database is locked"; step 1 returns that error, no row has been
inserted and no `AccountAdded` event has been published. -/
theorem ensureAdminRow_insert_failure_no_event :
    lookupNotFound
        ((sim.service sim.cfg3).storeAccount sim.cfg3.AdminAddress sim.insertFails).1.2 = true
      ∧ ((sim.service sim.cfg3).ensureAdminRow sim.insertFails).err
          = some sim.ErrDatabaseLocked
      ∧ ((sim.service sim.cfg3).ensureAdminRow sim.insertFails).trace.filter Call.isTrigger = []
      ∧ ((sim.service sim.cfg3).ensureAdminRow sim.insertFails).world.events = []
      ∧ ((sim.service sim.cfg3).ensureAdminRow sim.insertFails).world.rows = []
      ∧ ((sim.service sim.cfg3).InitAdminAccount sim.insertFails).err
          = some sim.ErrDatabaseLocked := by
  decide

/-- The amended C5 on two runs: from `insertFails` the run returns the error of the
insert in the world the insert left, after the lookup and the insert only; from
`oneKey` the run ends with the one event and the one row, and the admin row exists. -/
theorem initAdminAccount_admin_row_and_event_witness :
    (sim.service sim.cfg3).InitAdminAccount sim.insertFails
        = ⟨some sim.ErrDatabaseLocked, sim.insertFailed,
            [Call.storeAccount "0xf8d6e0586b0a20c7",
              Call.storeInsertAccount { Address := "0xf8d6e0586b0a20c7" }]⟩
      ∧ ((sim.service sim.cfg3).InitAdminAccount sim.oneKey).world.events
          = [{ Address := sim.HexToAddress "0xf8d6e0586b0a20c7" }]
      ∧ ((sim.service sim.cfg3).InitAdminAccount sim.oneKey).world.rows
          = [{ Address := "0xf8d6e0586b0a20c7" }]
      ∧ ((sim.service sim.cfg3).InitAdminAccount sim.oneKey).world.hasRow
          "0xf8d6e0586b0a20c7" = true
      ∧ ((sim.service sim.cfg3).InitAdminAccount sim.oneKey).world = sim.threeKeysReady
      ∧ ((sim.service sim.cfg3).InitAdminAccount sim.oneKey).trace.filter Call.isTrigger
          = [Call.accountAddedTrigger { Address := sim.HexToAddress "0xf8d6e0586b0a20c7" }]
      ∧ ((sim.service sim.cfg3).InitAdminAccount sim.insertFails).world.events = []
      ∧ ((sim.service sim.cfg3).InitAdminAccount sim.insertFails).err
          = some sim.ErrDatabaseLocked :=
  ⟨(initAdminAccount_admin_row_and_event.1 (sim.service sim.cfg3) sim.insertFails).2.2.2.1
      { Address := "" } sim.ErrRecordNotFound sim.insertFailsLooked sim.ErrDatabaseLocked
      sim.insertFailed (by decide) (by decide) (by decide),
    (initAdminAccount_admin_row_and_event.2 sim.cfg3 sim.oneKey).1.trans (by decide),
    (initAdminAccount_admin_row_and_event.2 sim.cfg3 sim.oneKey).2.1.trans (by decide),
    (initAdminAccount_admin_row_and_event.2 sim.cfg3 sim.oneKey).2.2 (by decide),
    by decide, by decide, by decide, by decide⟩

/-- C10 on runs with three keys wanted: a surplus of four keys (no transaction,
`nil`, the key count stays four), one key (a grow transaction for two keys, three
keys at the end), no key (a grow transaction for three keys, three keys at the
end), and a mismatch with a returned count of exactly three (no transaction,
`nil`). -/
theorem initAdminAccount_grows_iff_short_witness :
    ((((sim.service sim.cfg3).InitAdminAccount sim.fourKeys).err = none
        ∧ ((sim.service sim.cfg3).InitAdminAccount sim.fourKeys).world = sim.fourKeysReady
        ∧ ((sim.service sim.cfg3).InitAdminAccount sim.fourKeys).trace.filter Call.isCreate = [])
      ∧ ((sim.service sim.cfg3).InitAdminAccount sim.fourKeys).world.keyCount = 4)
    ∧ (((sim.service sim.cfg3).InitAdminAccount sim.oneKey).err = none
        ∧ ((sim.service sim.cfg3).InitAdminAccount sim.oneKey).world = sim.threeKeysReady
        ∧ ((sim.service sim.cfg3).InitAdminAccount sim.oneKey).trace.filter Call.isCreate
          = [(sim.service sim.cfg3).growCall (uint16Sub 3 1)])
    ∧ (((sim.service sim.cfg3).InitAdminAccount sim.noKeys).err = none
        ∧ ((sim.service sim.cfg3).InitAdminAccount sim.noKeys).world = sim.threeKeysReady
        ∧ ((sim.service sim.cfg3).InitAdminAccount sim.noKeys).trace.filter Call.isCreate
          = [(sim.service sim.cfg3).growCall (uint16Sub 3 0)])
    ∧ ((sim.service sim.cfg3).InitAdminAccount sim.oneKey).world.keyCount = 3
    ∧ ((sim.service sim.cfg3).InitAdminAccount sim.noKeys).world.keyCount = 3
    ∧ ((sim.service sim.cfg3).InitAdminAccount sim.oneKey).trace
        = [Call.storeAccount "0xf8d6e0586b0a20c7",
            Call.storeInsertAccount { Address := "0xf8d6e0586b0a20c7" },
            Call.accountAddedTrigger { Address := sim.HexToAddress "0xf8d6e0586b0a20c7" },
            Call.kmCheckAdminProposalKeyCount, Call.kmInitAdminProposalKeys,
            Call.transactionsCreate true "0xf8d6e0586b0a20c7" sim.AddProposalKeyTransaction
              [cadence.Value.NewInt 0, cadence.Value.NewUInt16 2]
              transactions.TransactionType.General,
            Call.kmInitAdminProposalKeys]
    ∧ ((mock.service sim.cfg3).InitAdminAccount mock.equalCount).trace
        = [Call.storeAccount "0xf8d6e0586b0a20c7", Call.kmCheckAdminProposalKeyCount,
            Call.kmInitAdminProposalKeys]
    ∧ ((mock.service sim.cfg3).InitAdminAccount mock.equalCount).err = none :=
  ⟨⟨(initAdminAccount_grows_iff_short.1 (sim.service sim.cfg3) sim.fourKeys).2.1
        sim.ErrAdminProposalKeyCountMismatch sim.fourKeysReady 4 sim.fourKeysReady
        (by decide) (by decide) (by decide) (by decide) (by decide),
      (initAdminAccount_grows_iff_short.2 sim.cfg3 sim.fourKeys (by decide) (by decide)).1⟩,
    (initAdminAccount_grows_iff_short.1 (sim.service sim.cfg3) sim.oneKey).2.2.2
      sim.ErrAdminProposalKeyCountMismatch sim.oneKeyReady 1 sim.oneKeyReady
      sim.threeKeysReady 3 none sim.threeKeysReady
      (by decide) (by decide) (by decide) (by decide) (by decide) (by decide) (by decide),
    (initAdminAccount_grows_iff_short.1 (sim.service sim.cfg3) sim.noKeys).2.2.2
      sim.ErrAdminProposalKeyCountMismatch sim.noKeysReady 0 sim.noKeysReady
      sim.threeKeysReady 3 none sim.threeKeysReady
      (by decide) (by decide) (by decide) (by decide) (by decide) (by decide) (by decide),
    by decide, by decide, by decide, by decide, by decide⟩

end accounts

/-! ## `jobs.Service.Details` -/

namespace jobs

variable {W J : Type}

/-- C6: for a `jobId` that `uuid.Parse` rejects, `Details` fails with the
`InvalidID` request error (status 400, "invalid job id"), returns the zero `Job`
and does not query the job store; the world is untouched. -/
theorem details_invalid_id (s : Service W J) (jobId : String) (w : W)
    (hparse : (s.uuidParse jobId).2 ≠ none) :
    (s.Details jobId w).err = some InvalidID
      ∧ (s.Details jobId w).err
          = some (.request { StatusCode := http.StatusBadRequest, Err := "invalid job id" })
      ∧ (s.Details jobId w).result = s.zeroJob
      ∧ (s.Details jobId w).queries = []
      ∧ (s.Details jobId w).world = w := by
  rcases hp : s.uuidParse jobId with ⟨id, oe⟩
  rw [hp] at hparse
  cases oe with
  | none => exact absurd rfl hparse
  | some e =>
    simp [Service.Details, hp, InvalidID, http.StatusBadRequest]

/-- C6 on the text "42". -/
theorem details_invalid_id_witness :
    (simService.Details "42" [goodJob]).err = some InvalidID
      ∧ (simService.Details "42" [goodJob]).err
          = some (.request { StatusCode := http.StatusBadRequest, Err := "invalid job id" })
      ∧ (simService.Details "42" [goodJob]).result = simService.zeroJob
      ∧ (simService.Details "42" [goodJob]).queries = []
      ∧ (simService.Details "42" [goodJob]).world = [goodJob] :=
  details_invalid_id simService "42" [goodJob] (by decide)

/-- C7: for a `jobId` that parses as the UUID `id`, `Details` queries the store for
`id` once; it fails with the `NotFound` request error (status 404, "job not found")
if and only if the job store reports that no job with that id exists, and when the
store returns a job without error `Details` returns that job and no error. -/
theorem details_not_found_iff (s : Service W J) (jobId : String) (w : W) (id : uuid.UUID)
    (hparse : s.uuidParse jobId = (id, none)) :
    ((s.Details jobId w).err = some NotFound ↔ reportsNoJob (s.dbJob id w).1.2 = true)
      ∧ ((s.Details jobId w).err
            = some (.request { StatusCode := http.StatusNotFound, Err := "job not found" })
          ↔ reportsNoJob (s.dbJob id w).1.2 = true)
      ∧ ((s.dbJob id w).1.2 = none →
          (s.Details jobId w).err = none ∧ (s.Details jobId w).result = (s.dbJob id w).1.1)
      ∧ (s.Details jobId w).queries = [id] := by
  rcases hq : s.dbJob id w with ⟨⟨job, oe⟩, w1⟩
  cases oe with
  | none => simp [Service.Details, hparse, hq, reportsNoJob]
  | some e =>
    by_cases ht : e.Error = "record not found"
    · simp [Service.Details, hparse, hq, reportsNoJob, ht, NotFound, http.StatusNotFound]
    · simp [Service.Details, hparse, hq, reportsNoJob, ht, NotFound]

/-- C7 on a store that holds the job asked for. -/
theorem details_not_found_iff_witness :
    (((simService.Details goodId [goodJob]).err = some NotFound
          ↔ reportsNoJob (simService.dbJob (simParse goodId).1 [goodJob]).1.2 = true)
      ∧ ((simService.Details goodId [goodJob]).err
            = some (.request { StatusCode := http.StatusNotFound, Err := "job not found" })
          ↔ reportsNoJob (simService.dbJob (simParse goodId).1 [goodJob]).1.2 = true)
      ∧ ((simService.dbJob (simParse goodId).1 [goodJob]).1.2 = none →
          (simService.Details goodId [goodJob]).err = none
            ∧ (simService.Details goodId [goodJob]).result
              = (simService.dbJob (simParse goodId).1 [goodJob]).1.1)
      ∧ (simService.Details goodId [goodJob]).queries = [(simParse goodId).1])
    ∧ (simService.Details goodId [goodJob]).result = goodJob
    ∧ (simService.Details goodId []).err = some NotFound :=
  ⟨details_not_found_iff simService goodId [goodJob] (simParse goodId).1 (by decide),
    by decide, by decide⟩

end jobs

/-! ## The account registry: add and delete -/

namespace accounts

theorem find_none_of_not_registered (r : Registry) (a : String)
    (h : r.registered a = false) :
    r.records.find? (fun b => decide (b.Address = a)) = none := by
  unfold Registry.registered at h
  rw [List.find?_eq_none]
  intro x hx
  have := (List.any_eq_false.mp h) x hx
  simpa using this

theorem delete_of_not_registered (r : Registry) (a : String)
    (h : r.registered a = false) : DeleteNonCustodialAccount a r = (none, r) := by
  unfold DeleteNonCustodialAccount
  rw [find_none_of_not_registered r a h]

theorem not_registered_after_delete (r r2 : Registry) (a : String)
    (h : DeleteNonCustodialAccount a r = (none, r2)) : r2.registered a = false := by
  unfold DeleteNonCustodialAccount at h
  split at h
  · rename_i hf
    simp only [Prod.mk.injEq, true_and] at h
    rw [← h]
    unfold Registry.registered
    rw [List.any_eq_false]
    intro x hx
    have := (List.find?_eq_none.mp hf) x hx
    simpa using this
  · split at h
    · simp at h
    · simp only [Prod.mk.injEq, true_and] at h
      rw [← h]
      unfold Registry.registered
      rw [List.any_eq_false]
      intro x hx
      have := (List.mem_filter.mp hx).2
      simpa using this

/-- C8: deleting an address that is not registered returns no error and leaves the
registry as it is; and after `Add(a)`, whenever a `Delete(a)` succeeds, a second
`Delete(a)` succeeds too and leaves the registry unchanged. -/
theorem deleteNonCustodialAccount_idempotent (r : Registry) (a : String) (now : Nat) :
    (r.registered a = false → DeleteNonCustodialAccount a r = (none, r))
      ∧ (∀ r2, DeleteNonCustodialAccount a (AddNonCustodialAccount now a r).2 = (none, r2) →
          DeleteNonCustodialAccount a r2 = (none, r2)) :=
  ⟨delete_of_not_registered r a, fun r2 h =>
    delete_of_not_registered r2 a (not_registered_after_delete _ r2 a h)⟩

/-- C8 on the address of the tests and a registry that holds another account. -/
theorem deleteNonCustodialAccount_idempotent_witness :
    DeleteNonCustodialAccount "0x0123456789" oneCustodial = (none, oneCustodial)
      ∧ DeleteNonCustodialAccount "0x0123456789"
          (AddNonCustodialAccount 2 "0x0123456789" oneCustodial).2
        = (none, { oneCustodial with notifications := ["0x0123456789"] })
      ∧ DeleteNonCustodialAccount "0x0123456789"
          { oneCustodial with notifications := ["0x0123456789"] }
        = (none, { oneCustodial with notifications := ["0x0123456789"] }) :=
  ⟨(deleteNonCustodialAccount_idempotent oneCustodial "0x0123456789" 2).1 (by decide),
    by decide,
    (deleteNonCustodialAccount_idempotent oneCustodial "0x0123456789" 2).2 _ (by decide)⟩

/-- C9: adding an address that is already registered, under any kind, fails with
`AlreadyExists` and leaves the registry unchanged; adding an address that is not
registered succeeds, returns an account whose `Address` is that address, and
registers it. -/
theorem addNonCustodialAccount_unique (r : Registry) (a : String) (now : Nat) :
    (r.registered a = true →
        AddNonCustodialAccount now a r = ((none, some RegistryError.AlreadyExists), r))
      ∧ (r.registered a = false →
          ∃ acc, (AddNonCustodialAccount now a r).1 = (some acc, none) ∧ acc.Address = a
            ∧ (AddNonCustodialAccount now a r).2.registered a = true) := by
  constructor
  · intro h
    simp [AddNonCustodialAccount, h]
  · intro h
    refine ⟨{ Address := a, Kind := .ExternallyOwned, CreatedAt := now }, ?_, rfl, ?_⟩
    · simp [AddNonCustodialAccount, h]
    · rw [AddNonCustodialAccount, h]
      simp [Registry.registered]

/-- C9 on the address of the tests: the first add succeeds, the second fails. -/
theorem addNonCustodialAccount_unique_witness :
    (∃ acc, (AddNonCustodialAccount 2 "0x0123456789" oneCustodial).1 = (some acc, none)
        ∧ acc.Address = "0x0123456789"
        ∧ (AddNonCustodialAccount 2 "0x0123456789" oneCustodial).2.registered
            "0x0123456789" = true)
      ∧ AddNonCustodialAccount 3 "0x0123456789"
          (AddNonCustodialAccount 2 "0x0123456789" oneCustodial).2
        = ((none, some RegistryError.AlreadyExists),
            (AddNonCustodialAccount 2 "0x0123456789" oneCustodial).2) :=
  ⟨(addNonCustodialAccount_unique oneCustodial "0x0123456789" 2).2 (by decide),
    (addNonCustodialAccount_unique (AddNonCustodialAccount 2 "0x0123456789" oneCustodial).2
      "0x0123456789" 3).1 (by decide)⟩

end accounts
